import Mathlib

/-!
Shallow embedding of the `nquads` Go package: a streaming N-Quads parser.

The underlying byte/character source (Go `bufio.Reader` over an `io.Reader`)
is modelled as a `List Char` of remaining runes together with the one-rune
pushback validity flag that `bufio` maintains (`UnreadRune` succeeds exactly
when the previous operation was a successful `ReadRune`).  Pushing a rune
back is modelled by prepending the last-read rune to the remaining input.
Go `rune` (int32) arithmetic appears only in the numeric-escape accumulator
and is modelled as `Int` with explicit two's-complement wrap at 2^32.
Looping functions carry an explicit fuel parameter; every call site passes
`input.length + 1`, which exceeds the number of loop iterations (each
iteration of every loop consumes at least one rune), so the `outOfFuel`
result is unreachable from the public entry points.
-/

namespace NQuads

/-- Term kinds of the minimal structural term shape (the external `rdf.Term`
interface used by the parser: a kind tag plus value, language and datatype
strings, zero value = `UnknownTerm`). -/
inductive TermKind
  | UnknownTerm
  | IRITerm
  | BlankTerm
  | LiteralTerm
  deriving DecidableEq, Repr

/-- A tagged RDF term as consumed from the `rdf` interface: the parser only
constructs terms via `IRI`, `Blank`, `Literal`, `LiteralWithLanguage` and
`LiteralWithDatatype` and reads back `kind`, `value` and `datatype`. -/
structure Term where
  kind : TermKind := .UnknownTerm
  value : String := ""
  language : String := ""
  datatype : String := ""
  deriving DecidableEq, Repr

def Term.IRI (v : String) : Term := { kind := .IRITerm, value := v }

def Term.Blank (l : String) : Term := { kind := .BlankTerm, value := l }

def Term.Literal (v : String) : Term := { kind := .LiteralTerm, value := v }

def Term.LiteralWithLanguage (v l : String) : Term :=
  { kind := .LiteralTerm, value := v, language := l }

def Term.LiteralWithDatatype (v d : String) : Term :=
  { kind := .LiteralTerm, value := v, datatype := d }

/-- A Quad consists of a subject, predicate, object and graph. -/
structure Quad where
  S : Term := {}
  P : Term := {}
  O : Term := {}
  G : Term := {}
  deriving DecidableEq, Repr

/-- The sentinel error values declared by the package (`ErrUnexpectedCharacter`,
`ErrInvalidCodepointExpression`, `ErrUnexpectedEOF = io.ErrUnexpectedEOF`,
`ErrUnterminatedQuad`, `ErrRelativeIRI`), plus `invalidUnreadRune` for the
`bufio` unread error in the branches that wrap it (unreachable in practice). -/
inductive ErrKind
  | unexpectedCharacter
  | invalidCodepointExpression
  | unexpectedEOF
  | unterminatedQuad
  | relativeIRI
  | invalidUnreadRune
  deriving DecidableEq, Repr

/-- A ParseError is returned for parsing errors.
The first line is 1.  The first column is 0. -/
structure ParseError where
  line : Int
  column : Int
  kind : ErrKind
  deriving DecidableEq, Repr

/-- A Go `error` value as the parser distinguishes them: `io.EOF` (compared
with `==` against `io.EOF`), the `bufio` invalid-`UnreadRune` error, a
`*ParseError`, or the unreachable fuel-exhaustion marker of this model. -/
inductive GoErr
  | eof
  | invalidUnread
  | parseErr (pe : ParseError)
  | outOfFuel
  deriving DecidableEq, Repr

/-- The `Reader` struct: position counters, the modelled buffered stream
(`input`, `canUnread`, `lastRune`), the scratch buffer `buf`, the sticky
error `err` and the last quad `q`. -/
structure Reader where
  line : Int := 0
  column : Int := 0
  input : List Char
  canUnread : Bool := false
  lastRune : Char := ' '
  buf : String := ""
  err : Option GoErr := none
  q : Quad := {}
  deriving DecidableEq, Repr

/-- NewReader returns a new Reader that reads from the given text. -/
def NewReader (s : String) : Reader := { input := s.data }

/-- wrap creates a new ParseError using err, annotating it with the current
column and line number. -/
def Reader.wrapErr (r : Reader) (k : ErrKind) : GoErr :=
  .parseErr { line := r.line, column := r.column, kind := k }

/-- Err returns any error encountered while reading. -/
def Reader.Err (r : Reader) : Option GoErr := r.err

/-- Quad returns the last quad read. -/
def Reader.Quad (r : Reader) : Quad := r.q

/-- `bufio.Reader.ReadRune` on the modelled stream; `none` models `io.EOF`
(Go returns rune 0 alongside the error, which no caller inspects). -/
def bRead (r : Reader) : Option Char × Reader :=
  match r.input with
  | [] => (none, { r with canUnread := false })
  | c :: rest => (some c, { r with input := rest, canUnread := true, lastRune := c })

/-- `bufio.Reader.UnreadRune`: fails unless the previous operation was a
successful `ReadRune`; on success the last rune is pushed back. -/
def bUnread (r : Reader) : Option Reader :=
  if r.canUnread then some { r with input := r.lastRune :: r.input, canUnread := false }
  else none

/-- `bufio.Reader.Peek 2`: inspects the next two bytes without consuming;
`none` models the `io.EOF` short read (fewer than two bytes left).  At every
use site the second byte is compared only against the single-byte characters
space, tab, LF and CR, so inspecting the next two runes is byte-accurate:
the first byte of a multi-byte rune is none of those. -/
def bPeek2 (r : Reader) : Option (Char × Char) × Reader :=
  match r.input with
  | a :: b :: _ => (some (a, b), { r with canUnread := false })
  | _ => (none, { r with canUnread := false })

/-- readRune reads one rune, folding CRLF to LF and keeping track of how far
into the line we have read. -/
def Reader.readRune (r : Reader) : Except GoErr Char × Reader :=
  match bRead r with
  | (none, r) => (.error .eof, { r with column := r.column + 1 })
  | (some c, r) =>
    if c = '\r' then
      match bRead r with
      | (none, r) => (.error .eof, { r with column := r.column + 1 })
      | (some c2, r) =>
        if c2 = '\n' then (.ok '\n', { r with column := r.column + 1 })
        else
          match bUnread r with
          | none => (.error .invalidUnread, r)
          | some r => (.ok '\r', { r with column := r.column + 1 })
    else (.ok c, { r with column := r.column + 1 })

/-- unreadRune puts the last rune read back. -/
def Reader.unreadRune (r : Reader) : Except GoErr Unit × Reader :=
  match bUnread r with
  | none => (.error .invalidUnread, r)
  | some r => (.ok (), { r with column := r.column - 1 })

def isNumeral (c : Char) : Bool := decide ('0' ≤ c ∧ c ≤ '9')

def isAlpha (c : Char) : Bool := decide (('A' ≤ c ∧ c ≤ 'Z') ∨ ('a' ≤ c ∧ c ≤ 'z'))

def isSpace (c : Char) : Bool := decide (c = ' ' ∨ c = '\t')

def isPnCharsBase (c : Char) : Bool :=
  isAlpha c ||
  decide (0x00C0 ≤ c.toNat ∧ c.toNat ≤ 0x00D6) ||
  decide (0x00D8 ≤ c.toNat ∧ c.toNat ≤ 0x00F6) ||
  decide (0x00F8 ≤ c.toNat ∧ c.toNat ≤ 0x02FF) ||
  decide (0x0370 ≤ c.toNat ∧ c.toNat ≤ 0x037D) ||
  decide (0x037F ≤ c.toNat ∧ c.toNat ≤ 0x1FFF) ||
  decide (0x200C ≤ c.toNat ∧ c.toNat ≤ 0x200D) ||
  decide (0x2070 ≤ c.toNat ∧ c.toNat ≤ 0x218F) ||
  decide (0x2C00 ≤ c.toNat ∧ c.toNat ≤ 0x2FEF) ||
  decide (0x3001 ≤ c.toNat ∧ c.toNat ≤ 0xD7FF) ||
  decide (0xF900 ≤ c.toNat ∧ c.toNat ≤ 0xFDCF) ||
  decide (0xFDF0 ≤ c.toNat ∧ c.toNat ≤ 0xFFFD) ||
  decide (0x10000 ≤ c.toNat ∧ c.toNat ≤ 0xEFFFF)

def isPnCharsU (c : Char) : Bool :=
  decide (c = '_') || decide (c = ':') || isPnCharsBase c

def isPnChars (c : Char) : Bool :=
  decide (c = '-') || decide (c.toNat = 0x00B7) ||
  isNumeral c || isPnCharsU c ||
  decide (0x0300 ≤ c.toNat ∧ c.toNat ≤ 0x036F) ||
  decide (0x203F ≤ c.toNat ∧ c.toNat ≤ 0x2040)

/-- A lightweight test: `strings.Contains(s, ":")` — since the needle is the
single character `:`, this is containment of `:` among the string's runes. -/
def isAbsoluteIRI (s : String) : Bool := s.data.contains ':'

/-- Two's-complement wrap of Go 32-bit `rune` arithmetic. -/
def wrap32 (x : Int) : Int := (x + 2 ^ 31) % 2 ^ 32 - 2 ^ 31

/-- Validity test of `utf8.EncodeRune` / `bytes.Buffer.WriteRune`: a negative
value, a surrogate, or a value beyond U+10FFFF encodes as U+FFFD. -/
def validRune (cp : Int) : Bool :=
  decide ((0 ≤ cp ∧ cp < 0xD800) ∨ (0xDFFF < cp ∧ cp ≤ 0x10FFFF))

/-- Conversion of the accumulated codepoint to the rune actually written by
`WriteRune`: the codepoint itself when it is a valid scalar, else U+FFFD. -/
def intToRune (cp : Int) : Char :=
  if validRune cp then Char.ofNat cp.toNat else Char.ofNat 0xFFFD

/-- The shared numeric-escape digit loop of `parseIRI` and `parseLiteral`
(`for i := size - 1; i >= 0; i--`): reads `n` hex digits into the big-endian
rune accumulator with Go int32 wraparound; a non-hex digit is an
invalid-codepoint-expression error. -/
def readHex : Nat → Int → Reader → Except GoErr Int × Reader
  | 0, cp, r => (.ok cp, r)
  | i + 1, cp, r =>
    match r.readRune with
    | (.error .eof, r) => (.error (r.wrapErr .unexpectedEOF), r)
    | (.error e, r) => (.error e, r)
    | (.ok c, r) =>
      if '0' ≤ c ∧ c ≤ '9' then
        readHex i (wrap32 (cp + wrap32 (2 ^ (4 * i) * ((c.toNat : Int) - ('0'.toNat : Int))))) r
      else if 'a' ≤ c ∧ c ≤ 'f' then
        readHex i (wrap32 (cp + wrap32 (2 ^ (4 * i) * ((c.toNat : Int) - ('a'.toNat : Int) + 10)))) r
      else if 'A' ≤ c ∧ c ≤ 'F' then
        readHex i (wrap32 (cp + wrap32 (2 ^ (4 * i) * ((c.toNat : Int) - ('A'.toNat : Int) + 10)))) r
      else (.error (r.wrapErr .invalidCodepointExpression), r)

def skipWhitespace : Nat → Reader → Except GoErr Char × Reader
  | 0, r => (.error .outOfFuel, r)
  | fuel + 1, r =>
    match r.readRune with
    | (.error e, r) => (.error e, r)
    | (.ok c, r) => if isSpace c then skipWhitespace fuel r else (.ok c, r)

def skipRestOfLine : Nat → Reader → Except GoErr Char × Reader
  | 0, r => (.error .outOfFuel, r)
  | fuel + 1, r =>
    match r.readRune with
    | (.error e, r) => (.error e, r)
    | (.ok c, r) =>
      if c = '\n' then (.ok '\n', { r with line := r.line + 1, column := 0 })
      else skipRestOfLine fuel r

def parseIRI : Nat → Reader → Except GoErr Term × Reader
  | 0, r => (.error .outOfFuel, r)
  | fuel + 1, r =>
    match r.readRune with
    | (.error .eof, r) => (.error (r.wrapErr .unexpectedEOF), r)
    | (.error e, r) => (.error e, r)
    | (.ok c, r) =>
      if c.toNat ≤ 0x20 ∨ c = '<' ∨ c = '"' ∨ c.toNat = 0x7B ∨ c.toNat = 0x7D ∨
          c = '|' ∨ c = '^' ∨ c.toNat = 0x60 then
        (.error (r.wrapErr .unexpectedCharacter), r)
      else if c = '>' then
        if r.buf.length = 0 then (.error (r.wrapErr .unexpectedCharacter), r)
        else (.ok (Term.IRI r.buf), r)
      else if c = '\\' then
        match r.readRune with
        | (.error .eof, r) => (.error (r.wrapErr .unexpectedEOF), r)
        | (.error e, r) => (.error e, r)
        | (.ok c2, r) =>
          if c2 = 'u' ∨ c2 = 'U' then
            match readHex (if c2 = 'U' then 8 else 4) 0 r with
            | (.error e, r) => (.error e, r)
            | (.ok cp, r) => parseIRI fuel { r with buf := r.buf.push (intToRune cp) }
          else (.error (r.wrapErr .unexpectedCharacter), r)
      else parseIRI fuel { r with buf := r.buf.push c }

/-- The label-scanning loop of `parseBlankNode`: the first label rune has
already been consumed into `buf`. -/
def parseBlankNodeLoop : Nat → Reader → Except GoErr Term × Reader
  | 0, r => (.error .outOfFuel, r)
  | fuel + 1, r =>
    match r.readRune with
    | (.error .eof, r) => (.error (r.wrapErr .unexpectedEOF), r)
    | (.error e, r) => (.error e, r)
    | (.ok c, r) =>
      if isPnChars c then parseBlankNodeLoop fuel { r with buf := r.buf.push c }
      else if isSpace c then (.ok (Term.Blank r.buf), r)
      else if c = '.' then
        match r.unreadRune with
        | (.error _, r) => (.ok {}, r)
        | (.ok _, r) =>
          match bPeek2 r with
          | (none, r) => (.ok (Term.Blank r.buf), r)
          | (some (_, c2), r) =>
            if c2 = ' ' ∨ c2 = '\t' ∨ c2 = '\n' ∨ c2 = '\r' then
              (.ok (Term.Blank r.buf), r)
            else
              match r.readRune with
              | (.error e, r) => (.error e, r)
              | (.ok _, r) => parseBlankNodeLoop fuel { r with buf := r.buf.push '.' }
      else (.error (r.wrapErr .unexpectedCharacter), r)

def parseBlankNode (r : Reader) : Except GoErr Term × Reader :=
  match r.readRune with
  | (.error .eof, r) => (.error (r.wrapErr .unexpectedEOF), r)
  | (.error e, r) => (.error e, r)
  | (.ok c, r) =>
    if c = ':' then
      match r.readRune with
      | (.error .eof, r) => (.error (r.wrapErr .unexpectedEOF), r)
      | (.error e, r) => (.error e, r)
      | (.ok c, r) =>
        if isPnCharsU c || isNumeral c then
          parseBlankNodeLoop (r.input.length + 1) { r with buf := r.buf.push c }
        else (.error (r.wrapErr .unexpectedCharacter), r)
    else (.error (r.wrapErr .unexpectedCharacter), r)

/-- The language-tag loop of `parseLiteral` after `"..."@`: `major` is the
major/subtag flag, `value` the already-read lexical value. -/
def parseLangTag : Nat → Bool → String → Reader → Except GoErr Term × Reader
  | 0, _, _, r => (.error .outOfFuel, r)
  | fuel + 1, major, value, r =>
    match r.readRune with
    | (.error .eof, r) => (.error (r.wrapErr .unexpectedEOF), r)
    | (.error e, r) => (.error e, r)
    | (.ok c, r) =>
      if c = '.' ∨ isSpace c then
        if r.buf.length = 0 then (.error (r.wrapErr .unexpectedCharacter), r)
        else
          match r.unreadRune with
          | (.error _, r) => (.error (r.wrapErr .invalidUnreadRune), r)
          | (.ok _, r) => (.ok (Term.LiteralWithLanguage value r.buf), r)
      else if major then
        if isAlpha c then parseLangTag fuel true value { r with buf := r.buf.push c }
        else if c = '-' then parseLangTag fuel false value { r with buf := r.buf.push c }
        else (.error (r.wrapErr .unexpectedCharacter), r)
      else
        if isAlpha c || isNumeral c then parseLangTag fuel false value { r with buf := r.buf.push c }
        else (.error (r.wrapErr .unexpectedCharacter), r)

/-- The datatype-IRI loop of `parseLiteral` after `"..."^^<`: reads runes
into `buf` until `>`, rejecting runes below 0x20 or above 0x7E and space,
`<`, `"`; `value` is the already-read lexical value. -/
def parseDatatypeIRILoop : Nat → String → Reader → Except GoErr Term × Reader
  | 0, _, r => (.error .outOfFuel, r)
  | fuel + 1, value, r =>
    match r.readRune with
    | (.error .eof, r) => (.error (r.wrapErr .unexpectedEOF), r)
    | (.error e, r) => (.error e, r)
    | (.ok c, r) =>
      if c = '>' then
        if r.buf.length = 0 then (.error (r.wrapErr .unexpectedCharacter), r)
        else (.ok (Term.LiteralWithDatatype value r.buf), r)
      else if c.toNat < 0x20 ∨ c.toNat > 0x7E ∨ c = ' ' ∨ c = '<' ∨ c = '"' then
        (.error (r.wrapErr .unexpectedCharacter), r)
      else parseDatatypeIRILoop fuel value { r with buf := r.buf.push c }

/-- The main loop of `parseLiteral`: the opening quote has been consumed. -/
def parseLiteralLoop : Nat → Reader → Except GoErr Term × Reader
  | 0, r => (.error .outOfFuel, r)
  | fuel + 1, r =>
    match r.readRune with
    | (.error .eof, r) => (.error (r.wrapErr .unexpectedEOF), r)
    | (.error e, r) => (.error e, r)
    | (.ok c, r) =>
      if c = '"' then
        match r.readRune with
        | (.error .eof, r) => (.error (r.wrapErr .unexpectedEOF), r)
        | (.error e, r) => (.error e, r)
        | (.ok c2, r) =>
          if c2 = '.' ∨ c2 = ' ' ∨ c2 = '\t' then
            match r.unreadRune with
            | (.error _, r) => (.error (r.wrapErr .invalidUnreadRune), r)
            | (.ok _, r) => (.ok (Term.Literal r.buf), r)
          else if c2 = '@' then
            parseLangTag (r.input.length + 1) true r.buf { r with buf := "" }
          else if c2 = '^' then
            let value := r.buf
            let r := { r with buf := "" }
            match r.readRune with
            | (.error .eof, r) => (.error (r.wrapErr .unexpectedEOF), r)
            | (.error e, r) => (.error e, r)
            | (.ok c3, r) =>
              if c3 = '^' then
                match r.readRune with
                | (.error .eof, r) => (.error (r.wrapErr .unexpectedEOF), r)
                | (.error e, r) => (.error e, r)
                | (.ok c4, r) =>
                  if c4 = '<' then parseDatatypeIRILoop (r.input.length + 1) value r
                  else (.error (r.wrapErr .unexpectedCharacter), r)
              else (.error (r.wrapErr .unexpectedCharacter), r)
          else (.error (r.wrapErr .unexpectedCharacter), r)
      else if c = '\\' then
        match r.readRune with
        | (.error .eof, r) => (.error (r.wrapErr .unexpectedEOF), r)
        | (.error e, r) => (.error e, r)
        | (.ok c2, r) =>
          if c2 = '\\' ∨ c2 = '"' then parseLiteralLoop fuel { r with buf := r.buf.push c2 }
          else if c2 = 't' then parseLiteralLoop fuel { r with buf := r.buf.push '\t' }
          else if c2 = 'r' then parseLiteralLoop fuel { r with buf := r.buf.push '\r' }
          else if c2 = 'n' then parseLiteralLoop fuel { r with buf := r.buf.push '\n' }
          else if c2 = 'b' then parseLiteralLoop fuel { r with buf := r.buf.push (Char.ofNat 0x08) }
          else if c2 = 'f' then parseLiteralLoop fuel { r with buf := r.buf.push (Char.ofNat 0x0C) }
          else if c2 = 'u' ∨ c2 = 'U' then
            match readHex (if c2 = 'U' then 8 else 4) 0 r with
            | (.error e, r) => (.error e, r)
            | (.ok cp, r) => parseLiteralLoop fuel { r with buf := r.buf.push (intToRune cp) }
          else (.error (r.wrapErr .unexpectedCharacter), r)
      else parseLiteralLoop fuel { r with buf := r.buf.push c }

def parseLiteral (r : Reader) : Except GoErr Term × Reader :=
  parseLiteralLoop (r.input.length + 1) r

def parseIriOrBlankNode (r : Reader) : Except GoErr Term × Reader :=
  let r := { r with buf := "" }
  match skipWhitespace (r.input.length + 1) r with
  | (.error e, r) => (.error e, r)
  | (.ok c, r) =>
    if c = '<' then parseIRI (r.input.length + 1) r
    else if c = '_' then parseBlankNode r
    else (.error (r.wrapErr .unexpectedCharacter), r)

def parseAnyTerm (r : Reader) : Except GoErr Term × Reader :=
  let r := { r with buf := "" }
  match skipWhitespace (r.input.length + 1) r with
  | (.error e, r) => (.error e, r)
  | (.ok c, r) =>
    if c = '<' then parseIRI (r.input.length + 1) r
    else if c = '_' then parseBlankNode r
    else if c = '"' then parseLiteral r
    else (.error (r.wrapErr .unexpectedCharacter), r)

def parseIriOrBlankNodeOrEndTriple (r : Reader) : Except GoErr (Bool × Term) × Reader :=
  let r := { r with buf := "" }
  match skipWhitespace (r.input.length + 1) r with
  | (.error e, r) => (.error e, r)
  | (.ok c, r) =>
    if c = '<' then
      match parseIRI (r.input.length + 1) r with
      | (.error e, r) => (.error e, r)
      | (.ok t, r) => (.ok (false, t), r)
    else if c = '_' then
      match parseBlankNode r with
      | (.error e, r) => (.error e, r)
      | (.ok t, r) => (.ok (false, t), r)
    else if c = '.' then (.ok (true, {}), r)
    else (.error (r.wrapErr .unexpectedCharacter), r)

def readEndQuad (r : Reader) : Except GoErr Unit × Reader :=
  match skipWhitespace (r.input.length + 1) r with
  | (.error .eof, r) => (.error (r.wrapErr .unterminatedQuad), r)
  | (.error e, r) => (.error e, r)
  | (.ok c, r) =>
    if c = '.' then (.ok (), r)
    else (.error (r.wrapErr .unexpectedCharacter), r)

def expectCommentOrEndOfLine (r : Reader) : Except GoErr Unit × Reader :=
  match skipWhitespace (r.input.length + 1) r with
  | (.error .eof, r) => (.ok (), r)
  | (.error e, r) => (.error e, r)
  | (.ok c, r) =>
    if c = '#' then
      match skipRestOfLine (r.input.length + 1) r with
      | (.error .eof, r) => (.ok (), r)
      | (.error e, r) => (.error e, r)
      | (.ok _, r) => (.ok (), r)
    else if c = '\n' then (.ok (), r)
    else (.error (r.wrapErr .unexpectedCharacter), r)

/-- The blank-line/comment-skipping loop at the top of `Next`
(`for r1 == '\n'`). -/
def skipBlankLoop : Nat → Reader → Except GoErr Char × Reader
  | 0, r => (.error .outOfFuel, r)
  | fuel + 1, r =>
    match skipWhitespace (r.input.length + 1) r with
    | (.error e, r) => (.error e, r)
    | (.ok c, r) =>
      if c = '#' then
        match skipRestOfLine (r.input.length + 1) r with
        | (.error e, r) => (.error e, r)
        | (.ok c2, r) => if c2 = '\n' then skipBlankLoop fuel r else (.ok c2, r)
      else if c = '\n' then skipBlankLoop fuel r
      else (.ok c, r)

/-- Next attempts to read the next quad.  It returns false if no quad could
be read, which may indicate an error has occurred or the end of the input
stream has been reached. -/
def Reader.Next (r : Reader) : Bool × Reader :=
  match r.err with
  | some _ => (false, r)
  | none =>
    let r := { r with q := {}, line := r.line + 1, column := -1 }
    match skipBlankLoop (r.input.length + 1) r with
    | (.error .eof, r) => (false, r)
    | (.error e, r) => (false, { r with err := some e })
    | (.ok _, r) =>
      match bUnread r with
      | none => (false, { r with err := some .invalidUnread })
      | some r =>
        match parseIriOrBlankNode r with
        | (.error e, r) => (false, { r with err := some e })
        | (.ok t, r) =>
          if t.kind = .IRITerm ∧ isAbsoluteIRI t.value = false then
            (false, { r with err := some (r.wrapErr .relativeIRI) })
          else
            let r := { r with q := { r.q with S := t } }
            match parseIriOrBlankNode r with
            | (.error e, r) => (false, { r with err := some e })
            | (.ok t, r) =>
              if t.kind = .IRITerm ∧ isAbsoluteIRI t.value = false then
                (false, { r with err := some (r.wrapErr .relativeIRI) })
              else
                let r := { r with q := { r.q with P := t } }
                match parseAnyTerm r with
                | (.error e, r) => (false, { r with err := some e })
                | (.ok t, r) =>
                  if t.kind = .IRITerm ∧ isAbsoluteIRI t.value = false then
                    (false, { r with err := some (r.wrapErr .relativeIRI) })
                  else if t.kind = .LiteralTerm ∧ t.datatype ≠ "" ∧
                      isAbsoluteIRI t.datatype = false then
                    (false, { r with err := some (r.wrapErr .relativeIRI) })
                  else
                    let r := { r with q := { r.q with O := t } }
                    match parseIriOrBlankNodeOrEndTriple r with
                    | (.error e, r) => (false, { r with err := some e })
                    | (.ok (true, _), r) =>
                      match expectCommentOrEndOfLine r with
                      | (.error e, r) => (false, { r with err := some e })
                      | (.ok _, r) => (true, r)
                    | (.ok (false, t), r) =>
                      let r := { r with q := { r.q with G := t } }
                      match readEndQuad r with
                      | (.error e, r) => (false, { r with err := some e })
                      | (.ok _, r) =>
                        match expectCommentOrEndOfLine r with
                        | (.error e, r) => (false, { r with err := some e })
                        | (.ok _, r) => (true, r)

end NQuads

namespace NQuads

/-! Helper lemmas about the rune cursor, shared by the claim proofs. -/

lemma readRune_nil (r : Reader) (h : r.input = []) :
    r.readRune = (.error .eof, { r with canUnread := false, column := r.column + 1 }) := by
  simp [Reader.readRune, bRead, h]

lemma readRune_cons (r : Reader) (c : Char) (rest : List Char)
    (h : r.input = c :: rest) (hc : c ≠ '\r') :
    r.readRune =
      (.ok c, { r with input := rest, canUnread := true, lastRune := c,
                       column := r.column + 1 }) := by
  simp [Reader.readRune, bRead, h, hc]

lemma readRune_crlf (r : Reader) (rest : List Char) (h : r.input = '\r' :: '\n' :: rest) :
    r.readRune =
      (.ok '\n', { r with input := rest, canUnread := true, lastRune := '\n',
                          column := r.column + 1 }) := by
  simp [Reader.readRune, bRead, h]

lemma readRune_cr_last (r : Reader) (h : r.input = ['\r']) :
    r.readRune =
      (.error .eof, { r with input := [], canUnread := false, lastRune := '\r',
                             column := r.column + 1 }) := by
  simp [Reader.readRune, bRead, h]

lemma readRune_cr_cons (r : Reader) (c : Char) (rest : List Char)
    (h : r.input = '\r' :: c :: rest) (hc : c ≠ '\n') :
    r.readRune =
      (.ok '\r', { r with input := c :: rest, canUnread := false, lastRune := c,
                          column := r.column + 1 }) := by
  simp [Reader.readRune, bRead, bUnread, h, hc]

end NQuads

namespace NQuads

lemma next_empty (r : Reader) (h1 : r.err = none) (h2 : r.input = []) :
    r.Next = (false, { r with q := {}, line := r.line + 1, column := 0,
                              canUnread := false }) := by
  simp [Reader.Next, skipBlankLoop, skipWhitespace, Reader.readRune, bRead, h1, h2]

/-- C1: once the reader's sticky error is set, `Next` returns false at once,
leaving the whole reader state (and hence `Err`) unchanged, so every
subsequent call behaves identically and `Err` keeps returning that error. -/
theorem next_after_error_is_noop (r : Reader) (e : GoErr) (h : r.err = some e) :
    r.Next = (false, r) ∧ r.Err = some e := by
  constructor
  · simp [Reader.Next, h]
  · exact h

theorem next_after_error_is_noop_witness :
    Reader.Next (Reader.Next (NewReader "@")).2 = (false, (Reader.Next (NewReader "@")).2) ∧
    Reader.Err (Reader.Next (NewReader "@")).2 =
      some (GoErr.parseErr ⟨1, 1, ErrKind.unexpectedCharacter⟩) :=
  next_after_error_is_noop _ _ (by decide)

/-- C10: a reader exhausted at a statement boundary (no sticky error, empty
stream) keeps returning false from `Next` with `Err` still `none`, on this
call and on every iterated subsequent call. -/
theorem exhausted_reader_stable (r : Reader) (h1 : r.err = none) (h2 : r.input = []) :
    ((r.Next).1 = false ∧ (r.Next).2.err = none ∧ Reader.Err (r.Next).2 = none) ∧
    ∀ n : Nat,
      ((fun s => (Reader.Next s).2)^[n] r).err = none ∧
      (Reader.Next ((fun s => (Reader.Next s).2)^[n] r)).1 = false := by
  have key : ∀ s : Reader, s.err = none → s.input = [] →
      (s.Next).1 = false ∧ (s.Next).2.err = none ∧ (s.Next).2.input = [] := by
    intro s hs1 hs2
    rw [next_empty s hs1 hs2]
    exact ⟨rfl, hs1, hs2⟩
  have inv : ∀ n : Nat,
      ((fun s => (Reader.Next s).2)^[n] r).err = none ∧
      ((fun s => (Reader.Next s).2)^[n] r).input = [] := by
    intro n
    induction n with
    | zero => exact ⟨h1, h2⟩
    | succ n ih =>
      rw [Function.iterate_succ_apply']
      exact ⟨(key _ ih.1 ih.2).2.1, (key _ ih.1 ih.2).2.2⟩
  refine ⟨⟨(key r h1 h2).1, (key r h1 h2).2.1, (key r h1 h2).2.1⟩, fun n => ?_⟩
  exact ⟨(inv n).1, (key _ (inv n).1 (inv n).2).1⟩

theorem exhausted_reader_stable_witness :
    (Reader.Next ((fun s => (Reader.Next s).2)^[3] (NewReader ""))).1 = false :=
  ((exhausted_reader_stable (NewReader "") rfl rfl).2 3).2

end NQuads

namespace NQuads

/-- The kind of a recorded error when it is a ParseError; `none` for no error
or for a bare stream error such as `io.EOF`. -/
def parseErrKind : Option GoErr → Option ErrKind
  | some (.parseErr pe) => some pe.kind
  | _ => none

/-- C2 counterexample: `Next` on `"<a:b> x"` fails with a non-nil error
(unexpected character at the predicate), yet `Quad` afterwards returns a quad
whose subject is the already-parsed `IRI "a:b"` — not the zero/empty quad. -/
theorem quad_after_failure_counterexample :
    (Reader.Next (NewReader "<a:b> x")).1 = false ∧
    (Reader.Next (NewReader "<a:b> x")).2.err =
      some (.parseErr ⟨1, 7, .unexpectedCharacter⟩) ∧
    Reader.Quad (Reader.Next (NewReader "<a:b> x")).2 = { S := Term.IRI "a:b" } ∧
    ({ S := Term.IRI "a:b" } : Quad) ≠ ({} : Quad) := by decide

/-- C3: the relative-IRI (absoluteness) check is NOT applied to the graph
term: `Next` accepts `"<a:b> <a:c> <a:d> <g> ."` although the graph IRI
`"g"` contains no colon, storing `IRI "g"` with no error — contradicting the
package documentation that all IRIs of an N-Quads document must be absolute. -/
theorem graph_relative_iri_accepted :
    (Reader.Next (NewReader "<a:b> <a:c> <a:d> <g> .")).1 = true ∧
    (Reader.Quad (Reader.Next (NewReader "<a:b> <a:c> <a:d> <g> .")).2).G =
      Term.IRI "g" ∧
    isAbsoluteIRI "g" = false ∧
    (Reader.Next (NewReader "<a:b> <a:c> <a:d> <g> .")).2.err = none := by decide

/-- C4 counterexample: the literal inputs of the claim are rejected, because
the subject IRI `"s"` contains no colon: `Next` on `"<s> <p> <o> ."` and on
`"<s> <p> <o> <g> ."` fails with the relative-IRI error. -/
theorem graph_optionality_counterexample :
    (Reader.Next (NewReader "<s> <p> <o> .")).1 = false ∧
    (Reader.Next (NewReader "<s> <p> <o> .")).2.err =
      some (.parseErr ⟨1, 3, .relativeIRI⟩) ∧
    (Reader.Next (NewReader "<s> <p> <o> <g> .")).1 = false ∧
    (Reader.Next (NewReader "<s> <p> <o> <g> .")).2.err =
      some (.parseErr ⟨1, 3, .relativeIRI⟩) := by decide

/-- C4 amended: with absolute subject/predicate/object IRIs the claim holds:
`"<s:> <p:> <o:> ."` parses to a quad with graph = Unknown (the zero term),
`"<s:> <p:> <o:> <g> ."` to a quad with graph = `IRI "g"` (the graph slot is
not absoluteness-checked), and on both single-statement inputs the following
call to `Next` reports no further quad. -/
theorem graph_optionality_absolute_iris :
    (Reader.Next (NewReader "<s:> <p:> <o:> .")).1 = true ∧
    (Reader.Quad (Reader.Next (NewReader "<s:> <p:> <o:> .")).2).G = ({} : Term) ∧
    ({} : Term).kind = TermKind.UnknownTerm ∧
    (Reader.Next (Reader.Next (NewReader "<s:> <p:> <o:> .")).2).1 = false ∧
    (Reader.Next (NewReader "<s:> <p:> <o:> <g> .")).1 = true ∧
    (Reader.Quad (Reader.Next (NewReader "<s:> <p:> <o:> <g> .")).2).G =
      Term.IRI "g" ∧
    (Reader.Next (Reader.Next (NewReader "<s:> <p:> <o:> <g> .")).2).1 = false := by decide

/-- C8 counterexample: a `'\r'` that is the last character of the input is
not returned as `'\r'`: `readRune` consumes it and reports end of file. -/
theorem readRune_trailing_cr_counterexample :
    (Reader.readRune (NewReader "\r")).1 = Except.error GoErr.eof ∧
    (Reader.readRune (NewReader "\r")).1 ≠ Except.ok '\r' :=
  ⟨rfl, fun h => Except.noConfusion h⟩

/-- C8 amended: `readRune` collapses `'\r'`-immediately-followed-by-`'\n'`
into a single `'\n'`; a `'\r'` followed by any other rune is returned as
`'\r'` itself (the follower pushed back); a `'\r'` that is the last character
of the input is swallowed and end of file is reported instead; and the column
counter increments exactly once per call, so a folded CRLF counts as one rune. -/
theorem readRune_fold_cases :
    (∀ (r : Reader) (rest : List Char), r.input = '\r' :: '\n' :: rest →
      r.readRune = (.ok '\n', { r with input := rest, canUnread := true,
                                       lastRune := '\n', column := r.column + 1 })) ∧
    (∀ (r : Reader) (c : Char) (rest : List Char),
      r.input = '\r' :: c :: rest → c ≠ '\n' →
      r.readRune = (.ok '\r', { r with input := c :: rest, canUnread := false,
                                       lastRune := c, column := r.column + 1 })) ∧
    (∀ (r : Reader) (c : Char) (rest : List Char), r.input = c :: rest → c ≠ '\r' →
      r.readRune = (.ok c, { r with input := rest, canUnread := true,
                                    lastRune := c, column := r.column + 1 })) ∧
    (∀ r : Reader, r.input = ['\r'] →
      r.readRune = (.error .eof, { r with input := [], canUnread := false,
                                          lastRune := '\r', column := r.column + 1 })) := by
  exact ⟨fun r rest h => readRune_crlf r rest h,
         fun r c rest h hc => readRune_cr_cons r c rest h hc,
         fun r c rest h hc => readRune_cons r c rest h hc,
         fun r h => readRune_cr_last r h⟩

theorem readRune_fold_cases_witness :
    Reader.readRune ({ input := ['\r', 'x'] } : Reader) =
      (.ok '\r', ({ input := ['x'], lastRune := 'x', column := 1 } : Reader)) :=
  readRune_fold_cases.2.1 ({ input := ['\r', 'x'] } : Reader) 'x' [] rfl (by decide)

end NQuads

namespace NQuads

/-- C7 counterexample: for a three-term statement whose input ends before the
terminating period (`"<a:b> <a:c> <a:d>"`), `Next` fails but the recorded
error is the bare end-of-file error `io.EOF`, not a ParseError of the
unterminated-quad kind. -/
theorem missing_terminator_counterexample :
    (Reader.Next (NewReader "<a:b> <a:c> <a:d>")).1 = false ∧
    (Reader.Next (NewReader "<a:b> <a:c> <a:d>")).2.err = some GoErr.eof ∧
    parseErrKind (Reader.Next (NewReader "<a:b> <a:c> <a:d>")).2.err ≠
      some ErrKind.unterminatedQuad := by decide

/-- C7 amended: in the terminator slot reached after a fourth (graph) term,
`readEndQuad` turns end of input into the unterminated-quad error and any
non-period rune into the unexpected-character error (general parts); a
four-term statement without the final period therefore records the
unterminated-quad kind, and a `,` there the unexpected-character kind — but a
three-term statement whose input ends at the graph-or-terminator slot records
the bare `io.EOF` error instead (concrete parts). -/
theorem missing_terminator_errors :
    (∀ r : Reader, r.input = [] →
      readEndQuad r =
        (.error (.parseErr ⟨r.line, r.column + 1, .unterminatedQuad⟩),
         { r with canUnread := false, column := r.column + 1 })) ∧
    (∀ (r : Reader) (c : Char) (rest : List Char), r.input = c :: rest →
      isSpace c = false → c ≠ '\r' → c ≠ '.' →
      readEndQuad r =
        (.error (.parseErr ⟨r.line, r.column + 1, .unexpectedCharacter⟩),
         { r with input := rest, canUnread := true, lastRune := c,
                  column := r.column + 1 })) ∧
    (Reader.Next (NewReader "<a:b> <a:c> <a:d> <g:h>")).2.err =
      some (.parseErr ⟨1, 24, .unterminatedQuad⟩) ∧
    (Reader.Next (NewReader "<a:b> <a:c> <a:d> <g:h> ,")).2.err =
      some (.parseErr ⟨1, 25, .unexpectedCharacter⟩) ∧
    (Reader.Next (NewReader "<a:b> <a:c> <a:d>")).2.err = some GoErr.eof := by
  refine ⟨?_, ?_, by decide, by decide, by decide⟩
  · intro r h
    simp [readEndQuad, h, skipWhitespace, readRune_nil r h, Reader.wrapErr]
  · intro r c rest h hs hcr hdot
    simp [readEndQuad, h, skipWhitespace, readRune_cons r c rest h hcr, hs, hdot,
      Reader.wrapErr]

theorem missing_terminator_errors_witness :
    readEndQuad ({ input := [] } : Reader) =
      (.error (.parseErr ⟨0, 1, .unterminatedQuad⟩),
       ({ input := [], column := 1 } : Reader)) :=
  missing_terminator_errors.1 ({ input := [] } : Reader) rfl

end NQuads

namespace NQuads

/-- C5: in blank-node label lexing a period is resolved by two-byte lookahead
(general parts, one unfolding of the label loop): with the stream at `.` and
nothing after it, or with whitespace/newline after it, the label ends before
the period (which stays unconsumed); otherwise the period joins the label and
scanning continues.  Concretely, `_:a.` at end of input or before a space
lexes to label `a`, and `_:a.b` to label `a.b`. -/
theorem blank_node_period_lookahead :
    (∀ (fuel : Nat) (r : Reader), r.input = ['.'] →
      parseBlankNodeLoop (fuel + 1) r =
        (.ok (Term.Blank r.buf), { r with canUnread := false, lastRune := '.' })) ∧
    (∀ (fuel : Nat) (r : Reader) (c2 : Char) (rest : List Char),
      r.input = '.' :: c2 :: rest → (c2 = ' ' ∨ c2 = '\t' ∨ c2 = '\n' ∨ c2 = '\r') →
      parseBlankNodeLoop (fuel + 1) r =
        (.ok (Term.Blank r.buf), { r with canUnread := false, lastRune := '.' })) ∧
    (∀ (fuel : Nat) (r : Reader) (c2 : Char) (rest : List Char),
      r.input = '.' :: c2 :: rest → ¬(c2 = ' ' ∨ c2 = '\t' ∨ c2 = '\n' ∨ c2 = '\r') →
      parseBlankNodeLoop (fuel + 1) r =
        parseBlankNodeLoop fuel
          { r with input := c2 :: rest, canUnread := true, lastRune := '.',
                   column := r.column + 1, buf := r.buf.push '.' }) ∧
    (parseBlankNode (NewReader ":a.")).1 = .ok (Term.Blank "a") ∧
    (parseBlankNode (NewReader ":a. ")).1 = .ok (Term.Blank "a") ∧
    (parseBlankNode (NewReader ":a.b ")).1 = .ok (Term.Blank "a.b") := by
  have hp : isPnChars '.' = false := by decide
  have hsp : isSpace '.' = false := by decide
  refine ⟨?_, ?_, ?_, rfl, rfl, rfl⟩
  · intro fuel r h
    simp [parseBlankNodeLoop, Reader.readRune, bRead, bUnread, Reader.unreadRune,
      bPeek2, h, hp, hsp, Int.add_sub_cancel]
  · intro fuel r c2 rest h hws
    simp [parseBlankNodeLoop, Reader.readRune, bRead, bUnread, Reader.unreadRune,
      bPeek2, h, hp, hsp, Int.add_sub_cancel]
    rcases hws with h2 | h2 | h2 | h2 <;> simp [h2]
  · intro fuel r c2 rest h hws
    simp [parseBlankNodeLoop, Reader.readRune, bRead, bUnread, Reader.unreadRune,
      bPeek2, h, hp, hsp, Int.add_sub_cancel, hws]

theorem blank_node_period_lookahead_witness :
    parseBlankNodeLoop 4 ({ input := ['.', 'b', ' '], buf := "a" } : Reader) =
      parseBlankNodeLoop 3
        ({ input := ['b', ' '], canUnread := true, lastRune := '.', column := 1,
           buf := "a." } : Reader) :=
  blank_node_period_lookahead.2.2.1 3 ({ input := ['.', 'b', ' '], buf := "a" } : Reader)
    'b' [' '] rfl (by decide)

end NQuads

namespace NQuads

/-- C6 counterexample: the same IRI body `a^b` is rejected by the standalone
IRI lexer (`^` is in its reserved set) but accepted by the datatype-IRI
position entered after `^^<`, so the two lexers do not accept the same
character sequences. -/
theorem datatype_iri_lexer_counterexample :
    (parseIRI 10 (NewReader "a^b>")).1 =
      .error (.parseErr ⟨0, 2, .unexpectedCharacter⟩) ∧
    (parseLiteral (NewReader "x\"^^<a^b> ")).1 =
      .ok (Term.LiteralWithDatatype "x" "a^b") := ⟨rfl, rfl⟩

/-- C6 amended: the datatype-IRI lexer entered after `^^<` is a separate
loop, not the IRI lexer: one unfolding shows it accepts exactly the
printable-ASCII runes 0x21–0x7E other than `<`, `"` and the terminating `>`,
decodes no escapes (a backslash is copied verbatim), rejects every rune above
0x7E, and errors on an empty datatype IRI; concretely `A` stays the
seven literal characters in a datatype IRI while the term IRI lexer decodes
it to `A`. -/
theorem datatype_iri_lexer_amended :
    (∀ (fuel : Nat) (value : String) (r : Reader) (rest : List Char),
      r.input = '>' :: rest → r.buf.length = 0 →
      parseDatatypeIRILoop (fuel + 1) value r =
        (.error (.parseErr ⟨r.line, r.column + 1, .unexpectedCharacter⟩),
         { r with input := rest, canUnread := true, lastRune := '>',
                  column := r.column + 1 })) ∧
    (∀ (fuel : Nat) (value : String) (r : Reader) (rest : List Char),
      r.input = '>' :: rest → r.buf.length ≠ 0 →
      parseDatatypeIRILoop (fuel + 1) value r =
        (.ok (Term.LiteralWithDatatype value r.buf),
         { r with input := rest, canUnread := true, lastRune := '>',
                  column := r.column + 1 })) ∧
    (∀ (fuel : Nat) (value : String) (r : Reader) (c : Char) (rest : List Char),
      r.input = c :: rest → c ≠ '\r' → c ≠ '>' →
      (c.toNat < 0x20 ∨ c.toNat > 0x7E ∨ c = ' ' ∨ c = '<' ∨ c = '"') →
      parseDatatypeIRILoop (fuel + 1) value r =
        (.error (.parseErr ⟨r.line, r.column + 1, .unexpectedCharacter⟩),
         { r with input := rest, canUnread := true, lastRune := c,
                  column := r.column + 1 })) ∧
    (∀ (fuel : Nat) (value : String) (r : Reader) (c : Char) (rest : List Char),
      r.input = c :: rest → c ≠ '>' →
      ¬(c.toNat < 0x20 ∨ c.toNat > 0x7E ∨ c = ' ' ∨ c = '<' ∨ c = '"') →
      parseDatatypeIRILoop (fuel + 1) value r =
        parseDatatypeIRILoop fuel value
          { r with input := rest, canUnread := true, lastRune := c,
                   column := r.column + 1, buf := r.buf.push c }) ∧
    (parseLiteral (NewReader "x\"^^<> ")).1 =
      .error (.parseErr ⟨0, 6, .unexpectedCharacter⟩) ∧
    (parseLiteral (NewReader "x\"^^<a\\u0041> ")).1 =
      .ok (Term.LiteralWithDatatype "x" "a\\u0041") ∧
    (parseIRI 20 (NewReader "a\\u0041b>")).1 = .ok (Term.IRI "aAb") := by
  refine ⟨?_, ?_, ?_, ?_, rfl, rfl, rfl⟩
  · intro fuel value r rest h hbuf
    simp [parseDatatypeIRILoop, readRune_cons r '>' rest h (by decide), hbuf,
      Reader.wrapErr]
  · intro fuel value r rest h hbuf
    simp [parseDatatypeIRILoop, readRune_cons r '>' rest h (by decide), hbuf,
      Reader.wrapErr]
  · intro fuel value r c rest h hcr hgt hbad
    simp [parseDatatypeIRILoop, readRune_cons r c rest h hcr, hgt, hbad,
      Reader.wrapErr]
  · intro fuel value r c rest h hgt hbad
    have hcr : c ≠ '\r' := by
      rintro rfl
      exact hbad (by decide)
    simp [parseDatatypeIRILoop, readRune_cons r c rest h hcr, hgt, hbad,
      Reader.wrapErr]

theorem datatype_iri_lexer_amended_witness :
    parseDatatypeIRILoop 3 "v" ({ input := ['a', '>'] } : Reader) =
      parseDatatypeIRILoop 2 "v"
        ({ input := ['>'], canUnread := true, lastRune := 'a', column := 1,
           buf := "a" } : Reader) :=
  datatype_iri_lexer_amended.2.2.2.1 2 "v" ({ input := ['a', '>'] } : Reader)
    'a' ['>'] rfl (by decide) (by decide)

end NQuads

namespace NQuads

/-- Predicate matching exactly the three digit ranges recognised by the
numeric-escape accumulator loop. -/
def isHexDigit (c : Char) : Bool :=
  decide ('0' ≤ c ∧ c ≤ '9') || decide ('a' ≤ c ∧ c ≤ 'f') || decide ('A' ≤ c ∧ c ≤ 'F')

lemma hexDigit_ne_cr (c : Char) (h : isHexDigit c = true) : c ≠ '\r' := by
  rintro rfl
  exact absurd h (by decide)

/-- If the next `ds.length` runes are all hex digits, the escape accumulator
loop succeeds (it never reports an error), consuming exactly those runes and
leaving the error and scratch-buffer state untouched. -/
lemma readHex_all_hex_ok (ds : List Char) :
    ∀ (cp : Int) (r : Reader) (rest : List Char),
      r.input = ds ++ rest → (∀ d ∈ ds, isHexDigit d = true) →
      ∃ v r2, readHex ds.length cp r = (.ok v, r2) ∧ r2.input = rest ∧
        r2.err = r.err ∧ r2.buf = r.buf := by
  induction ds with
  | nil =>
    intro cp r rest h _
    exact ⟨cp, r, rfl, by simpa using h, rfl, rfl⟩
  | cons d ds ih =>
    intro cp r rest h hall
    have hd : isHexDigit d = true := hall d (List.mem_cons_self d ds)
    have hds : ∀ x ∈ ds, isHexDigit x = true :=
      fun x hx => hall x (List.mem_cons_of_mem d hx)
    have hr := readRune_cons r d (ds ++ rest) h (hexDigit_ne_cr d hd)
    simp only [List.length_cons, readHex, hr]
    have hd2 : ('0' ≤ d ∧ d ≤ '9') ∨ ('a' ≤ d ∧ d ≤ 'f') ∨ ('A' ≤ d ∧ d ≤ 'F') := by
      simpa [isHexDigit, decide_eq_true_eq, or_assoc] using hd
    split_ifs with h1 h2 h3
    · obtain ⟨v, r2, hv, hinp, herr, hbuf⟩ := ih _
        { r with input := ds ++ rest, canUnread := true, lastRune := d,
                 column := r.column + 1 } rest rfl hds
      exact ⟨v, r2, hv, hinp, herr, hbuf⟩
    · obtain ⟨v, r2, hv, hinp, herr, hbuf⟩ := ih _
        { r with input := ds ++ rest, canUnread := true, lastRune := d,
                 column := r.column + 1 } rest rfl hds
      exact ⟨v, r2, hv, hinp, herr, hbuf⟩
    · obtain ⟨v, r2, hv, hinp, herr, hbuf⟩ := ih _
        { r with input := ds ++ rest, canUnread := true, lastRune := d,
                 column := r.column + 1 } rest rfl hds
      exact ⟨v, r2, hv, hinp, herr, hbuf⟩
    · rcases hd2 with h | h | h
      · exact absurd h h1
      · exact absurd h h2
      · exact absurd h h3

/-- C9: a numeric escape whose digits are all valid hexadecimal never fails —
`readHex` returns ok on any all-hex digit run (general part) — and a value
that is not a Unicode scalar (negative after int32 wrap, surrogate, or above
U+10FFFF) is written as the replacement character U+FFFD rather than reported
as an invalid-codepoint error; concretely, statements containing `FFFFFFFF`
in a literal and in an IRI both parse successfully with U+FFFD in the term
value and no error recorded. -/
theorem invalid_codepoint_replacement :
    (∀ (ds : List Char) (cp : Int) (r : Reader) (rest : List Char),
      r.input = ds ++ rest → (∀ d ∈ ds, isHexDigit d = true) →
      ∃ v r2, readHex ds.length cp r = (.ok v, r2) ∧ r2.input = rest) ∧
    (∀ cp : Int, validRune cp = false → intToRune cp = Char.ofNat 0xFFFD) ∧
    (Reader.Next (NewReader "<a:b> <a:c> \"\\UFFFFFFFF\" .")).1 = true ∧
    (Reader.Quad (Reader.Next (NewReader "<a:b> <a:c> \"\\UFFFFFFFF\" .")).2).O =
      Term.Literal "\uFFFD" ∧
    (Reader.Next (NewReader "<a:b> <a:c> \"\\UFFFFFFFF\" .")).2.err = none ∧
    (Reader.Next (NewReader "<a:b> <a:c> <x:\\UFFFFFFFF> .")).1 = true ∧
    (Reader.Quad (Reader.Next (NewReader "<a:b> <a:c> <x:\\UFFFFFFFF> .")).2).O =
      Term.IRI "x:\uFFFD" ∧
    (Reader.Next (NewReader "<a:b> <a:c> <x:\\UFFFFFFFF> .")).2.err = none := by
  refine ⟨?_, ?_, by decide, by decide, by decide, by decide, by decide, by decide⟩
  · intro ds cp r rest h hall
    obtain ⟨v, r2, hv, hinp, _, _⟩ := readHex_all_hex_ok ds cp r rest h hall
    exact ⟨v, r2, hv, hinp⟩
  · intro cp h
    simp [intToRune, h]

theorem invalid_codepoint_replacement_witness :
    intToRune (-1) = Char.ofNat 0xFFFD :=
  invalid_codepoint_replacement.2.1 (-1) (by decide)

end NQuads


namespace NQuads

/-! Frame lemmas used for claim C2: no rune-cursor or term-lexing function
ever writes the `q` field — only the explicit assignments in `Next` do. -/

lemma readRune_q (r : Reader) : (Reader.readRune r).2.q = r.q := by
  rcases h : r.input with _ | ⟨c, rest⟩
  · rw [readRune_nil r h]
  · by_cases hc : c = '\r'
    · subst hc
      rcases rest with _ | ⟨c2, rest2⟩
      · rw [readRune_cr_last r h]
      · by_cases hc2 : c2 = '\n'
        · subst hc2
          rw [readRune_crlf r rest2 h]
        · rw [readRune_cr_cons r c2 rest2 h hc2]
    · rw [readRune_cons r c rest h hc]

lemma unreadRune_q (r : Reader) : (Reader.unreadRune r).2.q = r.q := by
  unfold Reader.unreadRune bUnread
  by_cases hc : r.canUnread = true
  · simp [hc]
  · simp [hc]

lemma bUnread_some_q (r r2 : Reader) (h : bUnread r = some r2) : r2.q = r.q := by
  unfold bUnread at h
  split at h
  · cases h
    rfl
  · cases h

lemma bPeek2_q (r : Reader) : (bPeek2 r).2.q = r.q := by
  unfold bPeek2
  split
  all_goals rfl

lemma readHex_q : ∀ (n : Nat) (cp : Int) (r : Reader), ((readHex n cp r).2).q = r.q := by
  intro n
  induction n with
  | zero => intro cp r; rfl
  | succ n ih =>
    intro cp r
    rcases h1 : r.readRune with ⟨res1, r1⟩
    have hq1 : r1.q = r.q := by
      have t := readRune_q r
      rw [h1] at t
      exact t
    simp only [readHex, h1]
    rcases res1 with e1 | c
    · rcases e1 <;> simp [hq1]
    · repeat' split
      all_goals simp_all [ih]

lemma skipWhitespace_q : ∀ (n : Nat) (r : Reader), ((skipWhitespace n r).2).q = r.q := by
  intro n
  induction n with
  | zero => intro r; rfl
  | succ n ih =>
    intro r
    rcases h1 : r.readRune with ⟨res1, r1⟩
    have hq1 : r1.q = r.q := by
      have t := readRune_q r
      rw [h1] at t
      exact t
    simp only [skipWhitespace, h1]
    rcases res1 with e1 | c
    · simp [hq1]
    · repeat' split
      all_goals simp_all [ih]

lemma skipRestOfLine_q : ∀ (n : Nat) (r : Reader), ((skipRestOfLine n r).2).q = r.q := by
  intro n
  induction n with
  | zero => intro r; rfl
  | succ n ih =>
    intro r
    rcases h1 : r.readRune with ⟨res1, r1⟩
    have hq1 : r1.q = r.q := by
      have t := readRune_q r
      rw [h1] at t
      exact t
    simp only [skipRestOfLine, h1]
    rcases res1 with e1 | c
    · simp [hq1]
    · repeat' split
      all_goals simp_all [ih]

lemma skipBlankLoop_q : ∀ (n : Nat) (r : Reader), ((skipBlankLoop n r).2).q = r.q := by
  intro n
  induction n with
  | zero => intro r; rfl
  | succ n ih =>
    intro r
    rcases h1 : skipWhitespace (r.input.length + 1) r with ⟨res1, r1⟩
    have hq1 : r1.q = r.q := by
      have t := skipWhitespace_q (r.input.length + 1) r
      rw [h1] at t
      exact t
    simp only [skipBlankLoop, h1]
    rcases res1 with e1 | c
    · simp [hq1]
    · rcases h2 : skipRestOfLine (r1.input.length + 1) r1 with ⟨res2, r2⟩
      have hq2 : r2.q = r1.q := by
        have t := skipRestOfLine_q (r1.input.length + 1) r1
        rw [h2] at t
        exact t
      simp only [h2]
      repeat' split
      all_goals simp_all [ih]

end NQuads

namespace NQuads

lemma parseIRI_q : ∀ (n : Nat) (r : Reader), ((parseIRI n r).2).q = r.q := by
  intro n
  induction n with
  | zero => intro r; rfl
  | succ n ih =>
    intro r
    rcases h1 : r.readRune with ⟨res1, r1⟩
    have hq1 : r1.q = r.q := by
      have t := readRune_q r
      rw [h1] at t
      exact t
    simp only [parseIRI, h1]
    rcases res1 with e1 | c
    · rcases e1 <;> simp [hq1]
    · by_cases hbad : c.toNat ≤ 0x20 ∨ c = '<' ∨ c = '"' ∨ c.toNat = 0x7B ∨
          c.toNat = 0x7D ∨ c = '|' ∨ c = '^' ∨ c.toNat = 0x60
      · simp [hbad, hq1]
      · by_cases hgt : c = '>'
        · by_cases hbe : r1.buf.length = 0 <;> simp [hbad, hgt, hbe, hq1]
        · by_cases hbs : c = '\\'
          · rcases h2 : r1.readRune with ⟨res2, r2⟩
            have hq2 : r2.q = r1.q := by
              have t := readRune_q r1
              rw [h2] at t
              exact t
            rcases res2 with e2 | c2
            · rcases e2 <;> simp [hbad, hgt, hbs, h2, hq1, hq2]
            · by_cases hu : c2 = 'u' ∨ c2 = 'U'
              · rcases h3 : readHex (if c2 = 'U' then 8 else 4) 0 r2 with ⟨res3, r3⟩
                have hq3 : r3.q = r2.q := by
                  have t := readHex_q (if c2 = 'U' then 8 else 4) 0 r2
                  rw [h3] at t
                  exact t
                rcases res3 with e3 | cp
                · simp [hbad, hgt, hbs, h2, hu, h3, hq1, hq2, hq3]
                · simp [hbad, hgt, hbs, h2, hu, h3, ih, hq1, hq2, hq3]
              · simp [hbad, hgt, hbs, h2, hu, hq1, hq2]
          · simp [hbad, hgt, hbs, ih, hq1]

lemma parseBlankNodeLoop_q : ∀ (n : Nat) (r : Reader),
    ((parseBlankNodeLoop n r).2).q = r.q := by
  intro n
  induction n with
  | zero => intro r; rfl
  | succ n ih =>
    intro r
    have hpd : isPnChars '.' = false := by decide
    have hsd : isSpace '.' = false := by decide
    rcases h1 : r.readRune with ⟨res1, r1⟩
    have hq1 : r1.q = r.q := by
      have t := readRune_q r
      rw [h1] at t
      exact t
    simp only [parseBlankNodeLoop, h1]
    rcases res1 with e1 | c
    · rcases e1 <;> simp [hq1]
    · by_cases hpn : isPnChars c
      · simp [hpn, ih, hq1]
      · by_cases hsp : isSpace c
        · simp [hpn, hsp, hq1]
        · by_cases hdot : c = '.'
          · rcases h2 : r1.unreadRune with ⟨res2, r2⟩
            have hq2 : r2.q = r1.q := by
              have t := unreadRune_q r1
              rw [h2] at t
              exact t
            rcases res2 with e2 | u
            · simp [hpn, hsp, hdot, hpd, hsd, h2, hq1, hq2]
            · rcases h3 : bPeek2 r2 with ⟨res3, r3⟩
              have hq3 : r3.q = r2.q := by
                have t := bPeek2_q r2
                rw [h3] at t
                exact t
              rcases res3 with _ | ⟨p1, p2⟩
              · simp [hpn, hsp, hdot, hpd, hsd, h2, h3, hq1, hq2, hq3]
              · by_cases hws : p2 = ' ' ∨ p2 = '\t' ∨ p2 = '\n' ∨ p2 = '\r'
                · simp [hpn, hsp, hdot, hpd, hsd, h2, h3, hws, hq1, hq2, hq3]
                · rcases h4 : r3.readRune with ⟨res4, r4⟩
                  have hq4 : r4.q = r3.q := by
                    have t := readRune_q r3
                    rw [h4] at t
                    exact t
                  rcases res4 with e4 | c4
                  · simp [hpn, hsp, hdot, hpd, hsd, h2, h3, hws, h4, hq1, hq2, hq3, hq4]
                  · simp [hpn, hsp, hdot, hpd, hsd, h2, h3, hws, h4, ih, hq1, hq2, hq3, hq4]
          · simp [hpn, hsp, hdot, hq1]

lemma parseBlankNode_q (r : Reader) : ((parseBlankNode r).2).q = r.q := by
  rcases h1 : r.readRune with ⟨res1, r1⟩
  have hq1 : r1.q = r.q := by
    have t := readRune_q r
    rw [h1] at t
    exact t
  simp only [parseBlankNode, h1]
  rcases res1 with e1 | c
  · rcases e1 <;> simp [hq1]
  · by_cases hc : c = ':'
    · rcases h2 : r1.readRune with ⟨res2, r2⟩
      have hq2 : r2.q = r1.q := by
        have t := readRune_q r1
        rw [h2] at t
        exact t
      rcases res2 with e2 | c2
      · rcases e2 <;> simp [hc, h2, hq1, hq2]
      · by_cases hpn : (isPnCharsU c2 || isNumeral c2) = true
        · simp [hc, h2, hpn, parseBlankNodeLoop_q, hq1, hq2]
        · simp [hc, h2, hpn, hq1, hq2]
    · simp [hc, hq1]

lemma parseLangTag_q : ∀ (n : Nat) (major : Bool) (value : String) (r : Reader),
    ((parseLangTag n major value r).2).q = r.q := by
  intro n
  induction n with
  | zero => intro major value r; rfl
  | succ n ih =>
    intro major value r
    have hsm : isSpace '-' = false := by decide
    have ham : isAlpha '-' = false := by decide
    rcases h1 : r.readRune with ⟨res1, r1⟩
    have hq1 : r1.q = r.q := by
      have t := readRune_q r
      rw [h1] at t
      exact t
    simp only [parseLangTag, h1]
    rcases res1 with e1 | c
    · rcases e1 <;> simp [hq1]
    · by_cases hd : c = '.' ∨ isSpace c
      · by_cases hbe : r1.buf.length = 0
        · simp [hd, hbe, hq1]
        · rcases h2 : r1.unreadRune with ⟨res2, r2⟩
          have hq2 : r2.q = r1.q := by
            have t := unreadRune_q r1
            rw [h2] at t
            exact t
          rcases res2 with e2 | u
          · simp [hd, hbe, h2, hq1, hq2]
          · simp [hd, hbe, h2, hq1, hq2]
      · by_cases hmaj : major = true
        · by_cases hal : isAlpha c
          · simp [hd, hmaj, hal, ih, hq1]
          · by_cases hhy : c = '-'
            · simp [hd, hmaj, hal, hhy, hsm, ham, ih, hq1]
            · simp [hd, hmaj, hal, hhy, hsm, ham, hq1]
        · by_cases han : (isAlpha c || isNumeral c) = true
          · simp [hd, hmaj, han, ih, hq1]
          · simp [hd, hmaj, han, hq1]

lemma parseDatatypeIRILoop_q : ∀ (n : Nat) (value : String) (r : Reader),
    ((parseDatatypeIRILoop n value r).2).q = r.q := by
  intro n
  induction n with
  | zero => intro value r; rfl
  | succ n ih =>
    intro value r
    rcases h1 : r.readRune with ⟨res1, r1⟩
    have hq1 : r1.q = r.q := by
      have t := readRune_q r
      rw [h1] at t
      exact t
    simp only [parseDatatypeIRILoop, h1]
    rcases res1 with e1 | c
    · rcases e1 <;> simp [hq1]
    · by_cases hgt : c = '>'
      · by_cases hbe : r1.buf.length = 0 <;> simp [hgt, hbe, hq1]
      · by_cases hbad : c.toNat < 0x20 ∨ c.toNat > 0x7E ∨ c = ' ' ∨ c = '<' ∨ c = '"'
        · simp [hgt, hbad, hq1]
        · simp [hgt, hbad, ih, hq1]

end NQuads

namespace NQuads

lemma parseLiteralLoop_q : ∀ (n : Nat) (r : Reader), ((parseLiteralLoop n r).2).q = r.q := by
  intro n
  induction n with
  | zero => intro r; rfl
  | succ n ih =>
    intro r
    rcases h1 : r.readRune with ⟨res1, r1⟩
    have hq1 : r1.q = r.q := by
      have t := readRune_q r
      rw [h1] at t
      exact t
    simp only [parseLiteralLoop, h1]
    rcases res1 with e1 | c
    · rcases e1 <;> simp [hq1]
    · by_cases hqu : c = '"'
      · rcases h2 : r1.readRune with ⟨res2, r2⟩
        have hq2 : r2.q = r1.q := by
          have t := readRune_q r1
          rw [h2] at t
          exact t
        rcases res2 with e2 | c2
        · rcases e2 <;> simp [hqu, h2, hq1, hq2]
        · by_cases hdel : c2 = '.' ∨ c2 = ' ' ∨ c2 = '\t'
          · rcases h3 : r2.unreadRune with ⟨res3, r3⟩
            have hq3 : r3.q = r2.q := by
              have t := unreadRune_q r2
              rw [h3] at t
              exact t
            rcases res3 with e3 | u
            · simp [hqu, h2, hdel, h3, hq1, hq2, hq3]
            · simp [hqu, h2, hdel, h3, hq1, hq2, hq3]
          · by_cases hat : c2 = '@'
            · simp [hqu, h2, hdel, hat, parseLangTag_q, hq1, hq2]
            · by_cases hcar : c2 = '^'
              · rcases h4 : ({ r2 with buf := "" } : Reader).readRune with ⟨res4, r4⟩
                have hq4 : r4.q = r2.q := by
                  have t := readRune_q ({ r2 with buf := "" } : Reader)
                  rw [h4] at t
                  exact t
                rcases res4 with e4 | c3
                · rcases e4 <;>
                    · simp [hqu, h2, hdel, hat, hcar, h4]
                      simp [hq4, hq2, hq1]
                · by_cases hc3 : c3 = '^'
                  · rcases h5 : r4.readRune with ⟨res5, r5⟩
                    have hq5 : r5.q = r4.q := by
                      have t := readRune_q r4
                      rw [h5] at t
                      exact t
                    rcases res5 with e5 | c4
                    · rcases e5 <;>
                        · simp [hqu, h2, hdel, hat, hcar, h4, hc3, h5]
                          simp [hq5, hq4, hq2, hq1]
                    · by_cases hc4 : c4 = '<'
                      · simp [hqu, h2, hdel, hat, hcar, h4, hc3, h5, hc4,
                          parseDatatypeIRILoop_q]
                        simp [hq5, hq4, hq2, hq1]
                      · simp [hqu, h2, hdel, hat, hcar, h4, hc3, h5, hc4]
                        simp [hq5, hq4, hq2, hq1]
                  · simp [hqu, h2, hdel, hat, hcar, h4, hc3]
                    simp [hq4, hq2, hq1]
              · simp [hqu, h2, hdel, hat, hcar, hq1, hq2]
      · by_cases hbs : c = '\\'
        · rcases h2 : r1.readRune with ⟨res2, r2⟩
          have hq2 : r2.q = r1.q := by
            have t := readRune_q r1
            rw [h2] at t
            exact t
          rcases res2 with e2 | c2
          · rcases e2 <;> simp [hqu, hbs, h2, hq1, hq2]
          · by_cases he1 : c2 = '\\' ∨ c2 = '"'
            · simp [hqu, hbs, h2, he1, ih, hq1, hq2]
            · by_cases he2 : c2 = 't'
              · simp [hqu, hbs, h2, he1, he2, ih, hq1, hq2]
              · by_cases he3 : c2 = 'r'
                · simp [hqu, hbs, h2, he1, he2, he3, ih, hq1, hq2]
                · by_cases he4 : c2 = 'n'
                  · simp [hqu, hbs, h2, he1, he2, he3, he4, ih, hq1, hq2]
                  · by_cases he5 : c2 = 'b'
                    · simp [hqu, hbs, h2, he1, he2, he3, he4, he5, ih, hq1, hq2]
                    · by_cases he6 : c2 = 'f'
                      · simp [hqu, hbs, h2, he1, he2, he3, he4, he5, he6, ih, hq1, hq2]
                      · by_cases he7 : c2 = 'u' ∨ c2 = 'U'
                        · rcases h3 : readHex (if c2 = 'U' then 8 else 4) 0 r2 with ⟨res3, r3⟩
                          have hq3 : r3.q = r2.q := by
                            have t := readHex_q (if c2 = 'U' then 8 else 4) 0 r2
                            rw [h3] at t
                            exact t
                          rcases res3 with e3 | cp
                          · simp [hqu, hbs, h2, he1, he2, he3, he4, he5, he6, he7, h3,
                              hq1, hq2, hq3]
                          · simp [hqu, hbs, h2, he1, he2, he3, he4, he5, he6, he7, h3, ih,
                              hq1, hq2, hq3]
                        · simp [hqu, hbs, h2, he1, he2, he3, he4, he5, he6, he7, hq1, hq2]
        · simp [hqu, hbs, ih, hq1]

lemma parseLiteral_q (r : Reader) : ((parseLiteral r).2).q = r.q :=
  parseLiteralLoop_q (r.input.length + 1) r

lemma parseIriOrBlankNode_q (r : Reader) : ((parseIriOrBlankNode r).2).q = r.q := by
  rcases h1 : skipWhitespace (r.input.length + 1) ({ r with buf := "" } : Reader)
    with ⟨res1, r1⟩
  have hq1 : r1.q = r.q := by
    have t := skipWhitespace_q (r.input.length + 1) ({ r with buf := "" } : Reader)
    rw [h1] at t
    exact t
  simp only [parseIriOrBlankNode, h1]
  rcases res1 with e1 | c
  · simp [hq1]
  · by_cases h2 : c = '<'
    · simp [h2, parseIRI_q, hq1]
    · by_cases h3 : c = '_'
      · simp [h2, h3, parseBlankNode_q, hq1]
      · simp [h2, h3, hq1]

lemma parseAnyTerm_q (r : Reader) : ((parseAnyTerm r).2).q = r.q := by
  rcases h1 : skipWhitespace (r.input.length + 1) ({ r with buf := "" } : Reader)
    with ⟨res1, r1⟩
  have hq1 : r1.q = r.q := by
    have t := skipWhitespace_q (r.input.length + 1) ({ r with buf := "" } : Reader)
    rw [h1] at t
    exact t
  simp only [parseAnyTerm, h1]
  rcases res1 with e1 | c
  · simp [hq1]
  · by_cases h2 : c = '<'
    · simp [h2, parseIRI_q, hq1]
    · by_cases h3 : c = '_'
      · simp [h2, h3, parseBlankNode_q, hq1]
      · by_cases h4 : c = '"'
        · simp [h2, h3, h4, parseLiteral_q, hq1]
        · simp [h2, h3, h4, hq1]

lemma parseIriOrBlankNodeOrEndTriple_q (r : Reader) :
    ((parseIriOrBlankNodeOrEndTriple r).2).q = r.q := by
  rcases h1 : skipWhitespace (r.input.length + 1) ({ r with buf := "" } : Reader)
    with ⟨res1, r1⟩
  have hq1 : r1.q = r.q := by
    have t := skipWhitespace_q (r.input.length + 1) ({ r with buf := "" } : Reader)
    rw [h1] at t
    exact t
  simp only [parseIriOrBlankNodeOrEndTriple, h1]
  rcases res1 with e1 | c
  · simp [hq1]
  · by_cases h2 : c = '<'
    · rcases h4 : parseIRI (r1.input.length + 1) r1 with ⟨res4, r4⟩
      have hq4 : r4.q = r1.q := by
        have t := parseIRI_q (r1.input.length + 1) r1
        rw [h4] at t
        exact t
      rcases res4 with e4 | t4 <;> simp [h2, h4, hq1, hq4]
    · by_cases h3 : c = '_'
      · rcases h4 : parseBlankNode r1 with ⟨res4, r4⟩
        have hq4 : r4.q = r1.q := by
          have t := parseBlankNode_q r1
          rw [h4] at t
          exact t
        rcases res4 with e4 | t4 <;> simp [h2, h3, h4, hq1, hq4]
      · by_cases h5 : c = '.'
        · simp [h2, h3, h5, hq1]
        · simp [h2, h3, h5, hq1]

lemma readEndQuad_q (r : Reader) : ((readEndQuad r).2).q = r.q := by
  rcases h1 : skipWhitespace (r.input.length + 1) r with ⟨res1, r1⟩
  have hq1 : r1.q = r.q := by
    have t := skipWhitespace_q (r.input.length + 1) r
    rw [h1] at t
    exact t
  simp only [readEndQuad, h1]
  rcases res1 with e1 | c
  · rcases e1 <;> simp [hq1]
  · by_cases h2 : c = '.' <;> simp [h2, hq1]

lemma expectCommentOrEndOfLine_q (r : Reader) :
    ((expectCommentOrEndOfLine r).2).q = r.q := by
  rcases h1 : skipWhitespace (r.input.length + 1) r with ⟨res1, r1⟩
  have hq1 : r1.q = r.q := by
    have t := skipWhitespace_q (r.input.length + 1) r
    rw [h1] at t
    exact t
  simp only [expectCommentOrEndOfLine, h1]
  rcases res1 with e1 | c
  · rcases e1 <;> simp [hq1]
  · by_cases h2 : c = '#'
    · rcases h3 : skipRestOfLine (r1.input.length + 1) r1 with ⟨res3, r3⟩
      have hq3 : r3.q = r1.q := by
        have t := skipRestOfLine_q (r1.input.length + 1) r1
        rw [h3] at t
        exact t
      rcases res3 with e3 | c3
      · rcases e3 <;> simp [h2, h3, hq1, hq3]
      · simp [h2, h3, hq1, hq3]
    · by_cases h4 : c = '\n'
      · simp [h2, h4, hq1]
      · simp [h2, h4, hq1]

end NQuads

namespace NQuads

/-- C2 amended: after a `Next` that fails with a non-nil error, `Quad`
returns the partially assembled quad, not in general the zero quad: for every
reader, a failure while skipping blank lines/comments, at the pushback, at
the subject step, or on a relative subject IRI leaves the zero quad; a
failure at the predicate step (parse error or relative IRI) leaves `{S}`;
at the object step `{S, P}`; at the graph-or-terminator step or on trailing
junk after a triple `{S, P, O}`; after a graph term was read `{S, P, O, G}`;
and a call on a reader whose sticky error is set returns the state unchanged,
so the partial quad stays observable on all subsequent calls.  The concrete
parts witness this on `"<a:b> x"` (subject survives) and `"x"` (zero quad). -/
theorem quad_after_failure_keeps_earlier_terms :
    (∀ (r : Reader) (e : GoErr), r.err = some e → Reader.Next r = (false, r)) ∧
    (∀ (r r1 : Reader) (e : GoErr), r.err = none →
      skipBlankLoop (r.input.length + 1)
        { r with q := {}, line := r.line + 1, column := -1 } = (.error e, r1) →
      (Reader.Next r).1 = false ∧ (Reader.Next r).2.q = ({} : Quad)) ∧
    (∀ (r r1 : Reader) (c : Char), r.err = none →
      skipBlankLoop (r.input.length + 1)
        { r with q := {}, line := r.line + 1, column := -1 } = (.ok c, r1) →
      bUnread r1 = none →
      (Reader.Next r).1 = false ∧ (Reader.Next r).2.q = ({} : Quad)) ∧
    (∀ (r r1 r2 r3 : Reader) (c : Char) (e : GoErr), r.err = none →
      skipBlankLoop (r.input.length + 1)
        { r with q := {}, line := r.line + 1, column := -1 } = (.ok c, r1) →
      bUnread r1 = some r2 →
      parseIriOrBlankNode r2 = (.error e, r3) →
      (Reader.Next r).1 = false ∧ (Reader.Next r).2.q = ({} : Quad)) ∧
    (∀ (r r1 r2 r3 : Reader) (c : Char) (t : Term), r.err = none →
      skipBlankLoop (r.input.length + 1)
        { r with q := {}, line := r.line + 1, column := -1 } = (.ok c, r1) →
      bUnread r1 = some r2 →
      parseIriOrBlankNode r2 = (.ok t, r3) →
      t.kind = .IRITerm ∧ isAbsoluteIRI t.value = false →
      (Reader.Next r).1 = false ∧ (Reader.Next r).2.q = ({} : Quad)) ∧
    (∀ (r r1 r2 r3 r4 : Reader) (c : Char) (t : Term) (e : GoErr), r.err = none →
      skipBlankLoop (r.input.length + 1)
        { r with q := {}, line := r.line + 1, column := -1 } = (.ok c, r1) →
      bUnread r1 = some r2 →
      parseIriOrBlankNode r2 = (.ok t, r3) →
      ¬(t.kind = .IRITerm ∧ isAbsoluteIRI t.value = false) →
      parseIriOrBlankNode { r3 with q := { r3.q with S := t } } = (.error e, r4) →
      (Reader.Next r).1 = false ∧ (Reader.Next r).2.q = { S := t }) ∧
    (∀ (r r1 r2 r3 r4 : Reader) (c : Char) (t u : Term), r.err = none →
      skipBlankLoop (r.input.length + 1)
        { r with q := {}, line := r.line + 1, column := -1 } = (.ok c, r1) →
      bUnread r1 = some r2 →
      parseIriOrBlankNode r2 = (.ok t, r3) →
      ¬(t.kind = .IRITerm ∧ isAbsoluteIRI t.value = false) →
      parseIriOrBlankNode { r3 with q := { r3.q with S := t } } = (.ok u, r4) →
      u.kind = .IRITerm ∧ isAbsoluteIRI u.value = false →
      (Reader.Next r).1 = false ∧ (Reader.Next r).2.q = { S := t }) ∧
    (∀ (r r1 r2 r3 r4 r5 : Reader) (c : Char) (t u : Term) (e : GoErr), r.err = none →
      skipBlankLoop (r.input.length + 1)
        { r with q := {}, line := r.line + 1, column := -1 } = (.ok c, r1) →
      bUnread r1 = some r2 →
      parseIriOrBlankNode r2 = (.ok t, r3) →
      ¬(t.kind = .IRITerm ∧ isAbsoluteIRI t.value = false) →
      parseIriOrBlankNode { r3 with q := { r3.q with S := t } } = (.ok u, r4) →
      ¬(u.kind = .IRITerm ∧ isAbsoluteIRI u.value = false) →
      parseAnyTerm { r4 with q := { r4.q with P := u } } = (.error e, r5) →
      (Reader.Next r).1 = false ∧ (Reader.Next r).2.q = { S := t, P := u }) ∧
    (∀ (r r1 r2 r3 r4 r5 : Reader) (c : Char) (t u v : Term), r.err = none →
      skipBlankLoop (r.input.length + 1)
        { r with q := {}, line := r.line + 1, column := -1 } = (.ok c, r1) →
      bUnread r1 = some r2 →
      parseIriOrBlankNode r2 = (.ok t, r3) →
      ¬(t.kind = .IRITerm ∧ isAbsoluteIRI t.value = false) →
      parseIriOrBlankNode { r3 with q := { r3.q with S := t } } = (.ok u, r4) →
      ¬(u.kind = .IRITerm ∧ isAbsoluteIRI u.value = false) →
      parseAnyTerm { r4 with q := { r4.q with P := u } } = (.ok v, r5) →
      v.kind = .IRITerm ∧ isAbsoluteIRI v.value = false →
      (Reader.Next r).1 = false ∧ (Reader.Next r).2.q = { S := t, P := u }) ∧
    (∀ (r r1 r2 r3 r4 r5 : Reader) (c : Char) (t u v : Term), r.err = none →
      skipBlankLoop (r.input.length + 1)
        { r with q := {}, line := r.line + 1, column := -1 } = (.ok c, r1) →
      bUnread r1 = some r2 →
      parseIriOrBlankNode r2 = (.ok t, r3) →
      ¬(t.kind = .IRITerm ∧ isAbsoluteIRI t.value = false) →
      parseIriOrBlankNode { r3 with q := { r3.q with S := t } } = (.ok u, r4) →
      ¬(u.kind = .IRITerm ∧ isAbsoluteIRI u.value = false) →
      parseAnyTerm { r4 with q := { r4.q with P := u } } = (.ok v, r5) →
      ¬(v.kind = .IRITerm ∧ isAbsoluteIRI v.value = false) →
      v.kind = .LiteralTerm ∧ v.datatype ≠ "" ∧ isAbsoluteIRI v.datatype = false →
      (Reader.Next r).1 = false ∧ (Reader.Next r).2.q = { S := t, P := u }) ∧
    (∀ (r r1 r2 r3 r4 r5 r6 : Reader) (c : Char) (t u v : Term) (e : GoErr), r.err = none →
      skipBlankLoop (r.input.length + 1)
        { r with q := {}, line := r.line + 1, column := -1 } = (.ok c, r1) →
      bUnread r1 = some r2 →
      parseIriOrBlankNode r2 = (.ok t, r3) →
      ¬(t.kind = .IRITerm ∧ isAbsoluteIRI t.value = false) →
      parseIriOrBlankNode { r3 with q := { r3.q with S := t } } = (.ok u, r4) →
      ¬(u.kind = .IRITerm ∧ isAbsoluteIRI u.value = false) →
      parseAnyTerm { r4 with q := { r4.q with P := u } } = (.ok v, r5) →
      ¬(v.kind = .IRITerm ∧ isAbsoluteIRI v.value = false) →
      ¬(v.kind = .LiteralTerm ∧ v.datatype ≠ "" ∧ isAbsoluteIRI v.datatype = false) →
      parseIriOrBlankNodeOrEndTriple { r5 with q := { r5.q with O := v } } =
        (.error e, r6) →
      (Reader.Next r).1 = false ∧
        (Reader.Next r).2.q = { S := t, P := u, O := v }) ∧
    (∀ (r r1 r2 r3 r4 r5 r6 r7 : Reader) (c : Char) (t u v w : Term) (e : GoErr),
      r.err = none →
      skipBlankLoop (r.input.length + 1)
        { r with q := {}, line := r.line + 1, column := -1 } = (.ok c, r1) →
      bUnread r1 = some r2 →
      parseIriOrBlankNode r2 = (.ok t, r3) →
      ¬(t.kind = .IRITerm ∧ isAbsoluteIRI t.value = false) →
      parseIriOrBlankNode { r3 with q := { r3.q with S := t } } = (.ok u, r4) →
      ¬(u.kind = .IRITerm ∧ isAbsoluteIRI u.value = false) →
      parseAnyTerm { r4 with q := { r4.q with P := u } } = (.ok v, r5) →
      ¬(v.kind = .IRITerm ∧ isAbsoluteIRI v.value = false) →
      ¬(v.kind = .LiteralTerm ∧ v.datatype ≠ "" ∧ isAbsoluteIRI v.datatype = false) →
      parseIriOrBlankNodeOrEndTriple { r5 with q := { r5.q with O := v } } =
        (.ok (true, w), r6) →
      expectCommentOrEndOfLine r6 = (.error e, r7) →
      (Reader.Next r).1 = false ∧
        (Reader.Next r).2.q = { S := t, P := u, O := v }) ∧
    (∀ (r r1 r2 r3 r4 r5 r6 r7 : Reader) (c : Char) (t u v w : Term) (e : GoErr),
      r.err = none →
      skipBlankLoop (r.input.length + 1)
        { r with q := {}, line := r.line + 1, column := -1 } = (.ok c, r1) →
      bUnread r1 = some r2 →
      parseIriOrBlankNode r2 = (.ok t, r3) →
      ¬(t.kind = .IRITerm ∧ isAbsoluteIRI t.value = false) →
      parseIriOrBlankNode { r3 with q := { r3.q with S := t } } = (.ok u, r4) →
      ¬(u.kind = .IRITerm ∧ isAbsoluteIRI u.value = false) →
      parseAnyTerm { r4 with q := { r4.q with P := u } } = (.ok v, r5) →
      ¬(v.kind = .IRITerm ∧ isAbsoluteIRI v.value = false) →
      ¬(v.kind = .LiteralTerm ∧ v.datatype ≠ "" ∧ isAbsoluteIRI v.datatype = false) →
      parseIriOrBlankNodeOrEndTriple { r5 with q := { r5.q with O := v } } =
        (.ok (false, w), r6) →
      readEndQuad { r6 with q := { r6.q with G := w } } = (.error e, r7) →
      (Reader.Next r).1 = false ∧
        (Reader.Next r).2.q = { S := t, P := u, O := v, G := w }) ∧
    (∀ (r r1 r2 r3 r4 r5 r6 r7 r8 : Reader) (c : Char) (t u v w : Term) (e : GoErr),
      r.err = none →
      skipBlankLoop (r.input.length + 1)
        { r with q := {}, line := r.line + 1, column := -1 } = (.ok c, r1) →
      bUnread r1 = some r2 →
      parseIriOrBlankNode r2 = (.ok t, r3) →
      ¬(t.kind = .IRITerm ∧ isAbsoluteIRI t.value = false) →
      parseIriOrBlankNode { r3 with q := { r3.q with S := t } } = (.ok u, r4) →
      ¬(u.kind = .IRITerm ∧ isAbsoluteIRI u.value = false) →
      parseAnyTerm { r4 with q := { r4.q with P := u } } = (.ok v, r5) →
      ¬(v.kind = .IRITerm ∧ isAbsoluteIRI v.value = false) →
      ¬(v.kind = .LiteralTerm ∧ v.datatype ≠ "" ∧ isAbsoluteIRI v.datatype = false) →
      parseIriOrBlankNodeOrEndTriple { r5 with q := { r5.q with O := v } } =
        (.ok (false, w), r6) →
      readEndQuad { r6 with q := { r6.q with G := w } } = (.ok (), r7) →
      expectCommentOrEndOfLine r7 = (.error e, r8) →
      (Reader.Next r).1 = false ∧
        (Reader.Next r).2.q = { S := t, P := u, O := v, G := w }) ∧
    Reader.Quad (Reader.Next (NewReader "<a:b> x")).2 = { S := Term.IRI "a:b" } ∧
    Reader.Quad (Reader.Next (Reader.Next (NewReader "<a:b> x")).2).2 =
      { S := Term.IRI "a:b" } ∧
    Reader.Quad (Reader.Next (NewReader "x")).2 = ({} : Quad) ∧
    (Reader.Next (NewReader "x")).2.err =
      some (.parseErr ⟨1, 1, .unexpectedCharacter⟩) := by
  refine ⟨?_, ?_, ?_, ?_, ?_, ?_, ?_, ?_, ?_, ?_, ?_, ?_, ?_, ?_,
    by decide, by decide, by decide, by decide⟩
  · intro r e h
    simp [Reader.Next, h]
  · intro r r1 e hne hskip
    have hq1 : r1.q = ({} : Quad) := by
      have tt := skipBlankLoop_q (r.input.length + 1)
        { r with q := {}, line := r.line + 1, column := -1 }
      rw [hskip] at tt
      exact tt
    obtain ⟨lin, col, inp, cu, lru, bu, er, qu⟩ := r
    replace hne : er = none := hne
    subst hne
    rcases e <;> simp [Reader.Next, hskip, hq1]
  · intro r r1 c hne hskip hbu
    have hq1 : r1.q = ({} : Quad) := by
      have tt := skipBlankLoop_q (r.input.length + 1)
        { r with q := {}, line := r.line + 1, column := -1 }
      rw [hskip] at tt
      exact tt
    obtain ⟨lin, col, inp, cu, lru, bu, er, qu⟩ := r
    replace hne : er = none := hne
    subst hne
    simp [Reader.Next, hskip, hbu, hq1]
  · intro r r1 r2 r3 c e hne hskip hbu hsub
    have hq1 : r1.q = ({} : Quad) := by
      have tt := skipBlankLoop_q (r.input.length + 1)
        { r with q := {}, line := r.line + 1, column := -1 }
      rw [hskip] at tt
      exact tt
    have hq2 : r2.q = ({} : Quad) := by
      rw [bUnread_some_q r1 r2 hbu, hq1]
    have hq3 : r3.q = ({} : Quad) := by
      have tt := parseIriOrBlankNode_q r2
      rw [hsub] at tt
      rw [tt, hq2]
    obtain ⟨lin, col, inp, cu, lru, bu, er, qu⟩ := r
    replace hne : er = none := hne
    subst hne
    simp [Reader.Next, hskip, hbu, hsub, hq3]
  · intro r r1 r2 r3 c t hne hskip hbu hsub hrel
    have hq1 : r1.q = ({} : Quad) := by
      have tt := skipBlankLoop_q (r.input.length + 1)
        { r with q := {}, line := r.line + 1, column := -1 }
      rw [hskip] at tt
      exact tt
    have hq2 : r2.q = ({} : Quad) := by
      rw [bUnread_some_q r1 r2 hbu, hq1]
    have hq3 : r3.q = ({} : Quad) := by
      have tt := parseIriOrBlankNode_q r2
      rw [hsub] at tt
      rw [tt, hq2]
    obtain ⟨lin, col, inp, cu, lru, bu, er, qu⟩ := r
    replace hne : er = none := hne
    subst hne
    simp [Reader.Next, hskip, hbu, hsub, hrel, hq3]
  · intro r r1 r2 r3 r4 c t e hne hskip hbu hsub hrel hpred
    have hq1 : r1.q = ({} : Quad) := by
      have tt := skipBlankLoop_q (r.input.length + 1)
        { r with q := {}, line := r.line + 1, column := -1 }
      rw [hskip] at tt
      exact tt
    have hq2 : r2.q = ({} : Quad) := by
      rw [bUnread_some_q r1 r2 hbu, hq1]
    have hq3 : r3.q = ({} : Quad) := by
      have tt := parseIriOrBlankNode_q r2
      rw [hsub] at tt
      rw [tt, hq2]
    have hq4 : r4.q = { r3.q with S := t } := by
      have tt := parseIriOrBlankNode_q { r3 with q := { r3.q with S := t } }
      rw [hpred] at tt
      exact tt
    obtain ⟨lin, col, inp, cu, lru, bu, er, qu⟩ := r
    replace hne : er = none := hne
    subst hne
    simp [Reader.Next, hskip, hbu, hsub, hrel, hpred]
    simp [hq4, hq3]
  · intro r r1 r2 r3 r4 c t u hne hskip hbu hsub hrel hpred hrel2
    have hq1 : r1.q = ({} : Quad) := by
      have tt := skipBlankLoop_q (r.input.length + 1)
        { r with q := {}, line := r.line + 1, column := -1 }
      rw [hskip] at tt
      exact tt
    have hq2 : r2.q = ({} : Quad) := by
      rw [bUnread_some_q r1 r2 hbu, hq1]
    have hq3 : r3.q = ({} : Quad) := by
      have tt := parseIriOrBlankNode_q r2
      rw [hsub] at tt
      rw [tt, hq2]
    have hq4 : r4.q = { r3.q with S := t } := by
      have tt := parseIriOrBlankNode_q { r3 with q := { r3.q with S := t } }
      rw [hpred] at tt
      exact tt
    obtain ⟨lin, col, inp, cu, lru, bu, er, qu⟩ := r
    replace hne : er = none := hne
    subst hne
    simp [Reader.Next, hskip, hbu, hsub, hrel, hpred, hrel2]
    simp [hq4, hq3]
  · intro r r1 r2 r3 r4 r5 c t u e hne hskip hbu hsub hrel hpred hrel2 hobj
    have hq1 : r1.q = ({} : Quad) := by
      have tt := skipBlankLoop_q (r.input.length + 1)
        { r with q := {}, line := r.line + 1, column := -1 }
      rw [hskip] at tt
      exact tt
    have hq2 : r2.q = ({} : Quad) := by
      rw [bUnread_some_q r1 r2 hbu, hq1]
    have hq3 : r3.q = ({} : Quad) := by
      have tt := parseIriOrBlankNode_q r2
      rw [hsub] at tt
      rw [tt, hq2]
    have hq4 : r4.q = { r3.q with S := t } := by
      have tt := parseIriOrBlankNode_q { r3 with q := { r3.q with S := t } }
      rw [hpred] at tt
      exact tt
    have hq5 : r5.q = { r4.q with P := u } := by
      have tt := parseAnyTerm_q { r4 with q := { r4.q with P := u } }
      rw [hobj] at tt
      exact tt
    obtain ⟨lin, col, inp, cu, lru, bu, er, qu⟩ := r
    replace hne : er = none := hne
    subst hne
    simp [Reader.Next, hskip, hbu, hsub, hrel, hpred, hrel2, hobj]
    simp [hq5, hq4, hq3]
  · intro r r1 r2 r3 r4 r5 c t u v hne hskip hbu hsub hrel hpred hrel2 hobj hrel3
    have hq1 : r1.q = ({} : Quad) := by
      have tt := skipBlankLoop_q (r.input.length + 1)
        { r with q := {}, line := r.line + 1, column := -1 }
      rw [hskip] at tt
      exact tt
    have hq2 : r2.q = ({} : Quad) := by
      rw [bUnread_some_q r1 r2 hbu, hq1]
    have hq3 : r3.q = ({} : Quad) := by
      have tt := parseIriOrBlankNode_q r2
      rw [hsub] at tt
      rw [tt, hq2]
    have hq4 : r4.q = { r3.q with S := t } := by
      have tt := parseIriOrBlankNode_q { r3 with q := { r3.q with S := t } }
      rw [hpred] at tt
      exact tt
    have hq5 : r5.q = { r4.q with P := u } := by
      have tt := parseAnyTerm_q { r4 with q := { r4.q with P := u } }
      rw [hobj] at tt
      exact tt
    obtain ⟨lin, col, inp, cu, lru, bu, er, qu⟩ := r
    replace hne : er = none := hne
    subst hne
    simp [Reader.Next, hskip, hbu, hsub, hrel, hpred, hrel2, hobj, hrel3]
    simp [hq5, hq4, hq3]
  · intro r r1 r2 r3 r4 r5 c t u v hne hskip hbu hsub hrel hpred hrel2 hobj hrel3 hrel4
    have hq1 : r1.q = ({} : Quad) := by
      have tt := skipBlankLoop_q (r.input.length + 1)
        { r with q := {}, line := r.line + 1, column := -1 }
      rw [hskip] at tt
      exact tt
    have hq2 : r2.q = ({} : Quad) := by
      rw [bUnread_some_q r1 r2 hbu, hq1]
    have hq3 : r3.q = ({} : Quad) := by
      have tt := parseIriOrBlankNode_q r2
      rw [hsub] at tt
      rw [tt, hq2]
    have hq4 : r4.q = { r3.q with S := t } := by
      have tt := parseIriOrBlankNode_q { r3 with q := { r3.q with S := t } }
      rw [hpred] at tt
      exact tt
    have hq5 : r5.q = { r4.q with P := u } := by
      have tt := parseAnyTerm_q { r4 with q := { r4.q with P := u } }
      rw [hobj] at tt
      exact tt
    obtain ⟨lin, col, inp, cu, lru, bu, er, qu⟩ := r
    replace hne : er = none := hne
    subst hne
    simp [Reader.Next, hskip, hbu, hsub, hrel, hpred, hrel2, hobj, hrel3, hrel4]
    simp [hq5, hq4, hq3]
  · intro r r1 r2 r3 r4 r5 r6 c t u v e hne hskip hbu hsub hrel hpred hrel2 hobj
      hrel3 hrel4 hge
    have hq1 : r1.q = ({} : Quad) := by
      have tt := skipBlankLoop_q (r.input.length + 1)
        { r with q := {}, line := r.line + 1, column := -1 }
      rw [hskip] at tt
      exact tt
    have hq2 : r2.q = ({} : Quad) := by
      rw [bUnread_some_q r1 r2 hbu, hq1]
    have hq3 : r3.q = ({} : Quad) := by
      have tt := parseIriOrBlankNode_q r2
      rw [hsub] at tt
      rw [tt, hq2]
    have hq4 : r4.q = { r3.q with S := t } := by
      have tt := parseIriOrBlankNode_q { r3 with q := { r3.q with S := t } }
      rw [hpred] at tt
      exact tt
    have hq5 : r5.q = { r4.q with P := u } := by
      have tt := parseAnyTerm_q { r4 with q := { r4.q with P := u } }
      rw [hobj] at tt
      exact tt
    have hq6 : r6.q = { r5.q with O := v } := by
      have tt := parseIriOrBlankNodeOrEndTriple_q { r5 with q := { r5.q with O := v } }
      rw [hge] at tt
      exact tt
    obtain ⟨lin, col, inp, cu, lru, bu, er, qu⟩ := r
    replace hne : er = none := hne
    subst hne
    simp [Reader.Next, hskip, hbu, hsub, hrel, hpred, hrel2, hobj, hrel3, hrel4, hge]
    simp [hq6, hq5, hq4, hq3]
  · intro r r1 r2 r3 r4 r5 r6 r7 c t u v w e hne hskip hbu hsub hrel hpred hrel2 hobj
      hrel3 hrel4 hge hexp
    have hq1 : r1.q = ({} : Quad) := by
      have tt := skipBlankLoop_q (r.input.length + 1)
        { r with q := {}, line := r.line + 1, column := -1 }
      rw [hskip] at tt
      exact tt
    have hq2 : r2.q = ({} : Quad) := by
      rw [bUnread_some_q r1 r2 hbu, hq1]
    have hq3 : r3.q = ({} : Quad) := by
      have tt := parseIriOrBlankNode_q r2
      rw [hsub] at tt
      rw [tt, hq2]
    have hq4 : r4.q = { r3.q with S := t } := by
      have tt := parseIriOrBlankNode_q { r3 with q := { r3.q with S := t } }
      rw [hpred] at tt
      exact tt
    have hq5 : r5.q = { r4.q with P := u } := by
      have tt := parseAnyTerm_q { r4 with q := { r4.q with P := u } }
      rw [hobj] at tt
      exact tt
    have hq6 : r6.q = { r5.q with O := v } := by
      have tt := parseIriOrBlankNodeOrEndTriple_q { r5 with q := { r5.q with O := v } }
      rw [hge] at tt
      exact tt
    have hq7 : r7.q = r6.q := by
      have tt := expectCommentOrEndOfLine_q r6
      rw [hexp] at tt
      exact tt
    obtain ⟨lin, col, inp, cu, lru, bu, er, qu⟩ := r
    replace hne : er = none := hne
    subst hne
    simp [Reader.Next, hskip, hbu, hsub, hrel, hpred, hrel2, hobj, hrel3, hrel4,
      hge, hexp]
    simp [hq7, hq6, hq5, hq4, hq3]
  · intro r r1 r2 r3 r4 r5 r6 r7 c t u v w e hne hskip hbu hsub hrel hpred hrel2 hobj
      hrel3 hrel4 hge hend
    have hq1 : r1.q = ({} : Quad) := by
      have tt := skipBlankLoop_q (r.input.length + 1)
        { r with q := {}, line := r.line + 1, column := -1 }
      rw [hskip] at tt
      exact tt
    have hq2 : r2.q = ({} : Quad) := by
      rw [bUnread_some_q r1 r2 hbu, hq1]
    have hq3 : r3.q = ({} : Quad) := by
      have tt := parseIriOrBlankNode_q r2
      rw [hsub] at tt
      rw [tt, hq2]
    have hq4 : r4.q = { r3.q with S := t } := by
      have tt := parseIriOrBlankNode_q { r3 with q := { r3.q with S := t } }
      rw [hpred] at tt
      exact tt
    have hq5 : r5.q = { r4.q with P := u } := by
      have tt := parseAnyTerm_q { r4 with q := { r4.q with P := u } }
      rw [hobj] at tt
      exact tt
    have hq6 : r6.q = { r5.q with O := v } := by
      have tt := parseIriOrBlankNodeOrEndTriple_q { r5 with q := { r5.q with O := v } }
      rw [hge] at tt
      exact tt
    have hq7 : r7.q = { r6.q with G := w } := by
      have tt := readEndQuad_q { r6 with q := { r6.q with G := w } }
      rw [hend] at tt
      exact tt
    obtain ⟨lin, col, inp, cu, lru, bu, er, qu⟩ := r
    replace hne : er = none := hne
    subst hne
    simp [Reader.Next, hskip, hbu, hsub, hrel, hpred, hrel2, hobj, hrel3, hrel4,
      hge, hend]
    simp [hq7, hq6, hq5, hq4, hq3]
  · intro r r1 r2 r3 r4 r5 r6 r7 r8 c t u v w e hne hskip hbu hsub hrel hpred hrel2
      hobj hrel3 hrel4 hge hend hexp
    have hq1 : r1.q = ({} : Quad) := by
      have tt := skipBlankLoop_q (r.input.length + 1)
        { r with q := {}, line := r.line + 1, column := -1 }
      rw [hskip] at tt
      exact tt
    have hq2 : r2.q = ({} : Quad) := by
      rw [bUnread_some_q r1 r2 hbu, hq1]
    have hq3 : r3.q = ({} : Quad) := by
      have tt := parseIriOrBlankNode_q r2
      rw [hsub] at tt
      rw [tt, hq2]
    have hq4 : r4.q = { r3.q with S := t } := by
      have tt := parseIriOrBlankNode_q { r3 with q := { r3.q with S := t } }
      rw [hpred] at tt
      exact tt
    have hq5 : r5.q = { r4.q with P := u } := by
      have tt := parseAnyTerm_q { r4 with q := { r4.q with P := u } }
      rw [hobj] at tt
      exact tt
    have hq6 : r6.q = { r5.q with O := v } := by
      have tt := parseIriOrBlankNodeOrEndTriple_q { r5 with q := { r5.q with O := v } }
      rw [hge] at tt
      exact tt
    have hq7 : r7.q = { r6.q with G := w } := by
      have tt := readEndQuad_q { r6 with q := { r6.q with G := w } }
      rw [hend] at tt
      exact tt
    have hq8 : r8.q = r7.q := by
      have tt := expectCommentOrEndOfLine_q r7
      rw [hexp] at tt
      exact tt
    obtain ⟨lin, col, inp, cu, lru, bu, er, qu⟩ := r
    replace hne : er = none := hne
    subst hne
    simp [Reader.Next, hskip, hbu, hsub, hrel, hpred, hrel2, hobj, hrel3, hrel4,
      hge, hend, hexp]
    simp [hq8, hq7, hq6, hq5, hq4, hq3]

theorem quad_after_failure_keeps_earlier_terms_witness :
    (Reader.Next (NewReader "<a:b> x")).1 = false ∧
    (Reader.Next (NewReader "<a:b> x")).2.q = { S := Term.IRI "a:b" } :=
  quad_after_failure_keeps_earlier_terms.2.2.2.2.2.1 (NewReader "<a:b> x") _ _ _ _
    '<' (Term.IRI "a:b") _ rfl rfl rfl rfl (by decide) rfl

end NQuads
